import Mathlib

/-!
# pr-manager: reviewer assignment and pull-request lifecycle

A shallow embedding of the Go services of `internal/service` over the storage layer of
`internal/repository`.

* The PostgreSQL database is a value of type `DB`: three tables, each a list of rows in
  insertion order.  Every repository method is a function of the database it reads and,
  when it writes, returns the new database.
* `time.Now()` of the service process, `CURRENT_TIMESTAMP` of the database and the draws
  of the random source behind `rand.Shuffle` are inputs of every call (`Env`).
* Go errors are values of `Err`; a service method returns its result together with the
  database it leaves behind.
* Timestamps are natural numbers (the zero `time.Time` is `0`), identifiers are strings.
* A driver failure is modelled for the row query of `userRepository.GetByID` only
  (`Env.userQueryFault`); every other query reaches the database and is answered.
* `ORDER BY username` is a stable sort by code points; every selection shuffles the
  query result, and no statement below depends on the collation.
-/

namespace PRManager

/-! ## internal/models -/

/-- The sentinel errors of `models/errors.go`, plus `infra` for the errors the repositories
build with `fmt.Errorf` and `errors.Wrap` around a driver failure. -/
inductive Err where
  | ErrNotFound
  | ErrInvalidUserID
  | ErrInvalidUsername
  | ErrInvalidTeamName
  | ErrUserNotActive
  | ErrTeamExists
  | ErrInvalidPRID
  | ErrInvalidPRName
  | ErrInvalidAuthorID
  | ErrPRExists
  | ErrPRMerged
  | ErrNotAssigned
  | ErrNoCandidate
  | ErrTooManyReviewers
  | infra (msg : String)
  deriving DecidableEq, Repr

abbrev Time := Nat

/-- The struct `models.User`. -/
structure User where
  ID : String
  Username : String
  TeamName : String
  IsActive : Bool
  CreatedAt : Time
  UpdatedAt : Time
  deriving DecidableEq, Repr

abbrev PullRequestStatus := String

def StatusOpen : PullRequestStatus := "OPEN"

def StatusMerged : PullRequestStatus := "MERGED"

/-- The struct `models.PullRequest`; it is also the row type of table `pull_requests`. -/
structure PullRequest where
  ID : String
  Name : String
  AuthorID : String
  Status : PullRequestStatus
  AssignedReviewers : List String
  CreatedAt : Time
  MergedAt : Option Time
  UpdatedAt : Time
  deriving DecidableEq, Repr

/-- The method `(*PullRequest).Validate`: `none` is Go's `nil` error. -/
def PullRequest.Validate (pr : PullRequest) : Option Err :=
  if pr.ID = "" then some .ErrInvalidPRID
  else if pr.Name = "" then some .ErrInvalidPRName
  else if pr.AuthorID = "" then some .ErrInvalidAuthorID
  else if pr.AssignedReviewers.length > 2 then some .ErrTooManyReviewers
  else none

structure PRCreateRequest where
  ID : String
  Name : String
  AuthorID : String
  deriving DecidableEq, Repr

structure PRMergeRequest where
  ID : String
  deriving DecidableEq, Repr

structure PRReassignRequest where
  ID : String
  OldReviewer : String
  deriving DecidableEq, Repr

/-- The method `(*User).Validate`. -/
def User.Validate (u : User) : Option Err :=
  if u.ID = "" then some .ErrInvalidUserID
  else if u.Username = "" then some .ErrInvalidUsername
  else if u.TeamName = "" then some .ErrInvalidTeamName
  else none

/-- The struct `models.Team`. -/
structure Team where
  Name : String
  Members : List User
  CreatedAt : Time
  UpdatedAt : Time
  deriving DecidableEq, Repr

/-- The loop of `(*Team).Validate` over the members: a member that fails its own
validation stops the loop, a member that passes has its `TeamName` overwritten.  The
second component is the member list as the loop leaves it. -/
def Team.validateMembers (name : String) : List User → Option Err × List User
  | [] => (none, [])
  | m :: rest =>
    match m.Validate with
    | some e => (some e, m :: rest)
    | none =>
      let r := Team.validateMembers name rest
      (r.1, { m with TeamName := name } :: r.2)

/-- The method `(*Team).Validate`; the members are pointers, so the team is returned as
the call leaves it. -/
def Team.Validate (t : Team) : Option Err × Team :=
  if t.Name = "" then (some .ErrInvalidTeamName, t)
  else
    let r := Team.validateMembers t.Name t.Members
    (r.1, { t with Members := r.2 })

/-! ## The database -/

/-- A row of table `teams`. -/
structure TeamRow where
  Name : String
  CreatedAt : Time
  UpdatedAt : Time
  deriving DecidableEq, Repr

/-- The three tables, rows in insertion order. -/
structure DB where
  pull_requests : List PullRequest
  users : List User
  teams : List TeamRow
  deriving DecidableEq, Repr

def DB.empty : DB := { pull_requests := [], users := [], teams := [] }

/-- The primary keys of the schema: `pull_requests.id`, `users.id`, `teams.name`. -/
def DB.wf (db : DB) : Prop :=
  (db.pull_requests.map (·.ID)).Nodup ∧ (db.users.map (·.ID)).Nodup ∧
    (db.teams.map (·.Name)).Nodup

instance (db : DB) : Decidable db.wf := by
  unfold DB.wf; infer_instance

/-- What a call reads from outside the database. -/
structure Env where
  /-- The value of `time.Now()` in the service. -/
  now : Time
  /-- The value of `CURRENT_TIMESTAMP` in the database. -/
  dbNow : Time
  /-- The random source: `rnd i` is the draw behind `r.int31n(i+1)`. -/
  rnd : Nat → Nat
  /-- A driver failure of the row query of `userRepository.GetByID`, if any. -/
  userQueryFault : Option String

/-! ## internal/utils -/

/-- The closure passed to `r.Shuffle`: `shuffled[i], shuffled[j] = shuffled[j], shuffled[i]`. -/
def swap {α : Type} (l : List α) (i j : Nat) : List α :=
  match l[i]?, l[j]? with
  | some a, some b => (l.set i b).set j a
  | _, _ => l

/-- The loop of `(*rand.Rand).Shuffle`: `for ; i > 0; i-- { j := r.int31n(i+1); swap(i, j) }`. -/
def shuffleLoop {α : Type} (rnd : Nat → Nat) : Nat → List α → List α
  | 0, l => l
  | i + 1, l => shuffleLoop rnd i (swap l (i + 1) (rnd (i + 1) % (i + 2)))

/-- The function `utils.ShuffleUsers` (and `utils.ShuffleStrings`, the same code at another
element type): copy, then Fisher-Yates from the last index down. -/
def Shuffle {α : Type} (rnd : Nat → Nat) (items : List α) : List α :=
  shuffleLoop rnd (items.length - 1) items

def ShuffleUsers (rnd : Nat → Nat) (users : List User) : List User := Shuffle rnd users

def ShuffleStrings (rnd : Nat → Nat) (items : List String) : List String := Shuffle rnd items

/-! ## internal/repository -/

/-- The clause `ORDER BY username`. -/
def orderByUsername (rows : List User) : List User :=
  rows.insertionSort (fun a b => ¬ (b.Username.data < a.Username.data))

namespace userRepository

def GetByID (db : DB) (fault : Option String) (userID : String) : Except Err User :=
  match fault with
  | some msg => .error (.infra ("failed to get user by id: " ++ msg))
  | none =>
    match db.users.find? (fun u => u.ID == userID) with
    | some u => .ok u
    | none => .error .ErrNotFound

def SetActive (db : DB) (dbNow : Time) (userID : String) (isActive : Bool) : Except Err DB :=
  if db.users.countP (fun u => u.ID == userID) = 0 then .error .ErrNotFound
  else .ok { db with users := db.users.map (fun u =>
    if u.ID == userID then { u with IsActive := isActive, UpdatedAt := dbNow } else u) }

def GetActiveTeamMembers (db : DB) (teamName : String) : List User :=
  orderByUsername (db.users.filter (fun u => u.TeamName == teamName && u.IsActive == true))

def GetActiveTeamMembersExcluding (db : DB) (teamName : String) (excludeUserIDs : List String) :
    List User :=
  if excludeUserIDs.length = 0 then GetActiveTeamMembers db teamName
  else orderByUsername (db.users.filter (fun u =>
    u.TeamName == teamName && u.IsActive == true && excludeUserIDs.all (fun x => u.ID != x)))

end userRepository

/-- The statement `INSERT INTO users ... ON CONFLICT (id) DO UPDATE SET ...` of
`teamRepository.Create` for one member. -/
def upsertUser (dbNow : Time) (teamName : String) (users : List User) (m : User) : List User :=
  if users.any (fun u => u.ID == m.ID) then
    users.map (fun u => if u.ID == m.ID then
      { u with Username := m.Username, TeamName := teamName, IsActive := m.IsActive,
               UpdatedAt := dbNow } else u)
  else
    users ++ [{ ID := m.ID, Username := m.Username, TeamName := teamName,
                IsActive := m.IsActive, CreatedAt := dbNow, UpdatedAt := dbNow }]

namespace teamRepository

def Exists (db : DB) (teamName : String) : Bool :=
  db.teams.any (fun t => t.Name == teamName)

/-- One transaction: the team row, then every member in order. -/
def Create (db : DB) (dbNow : Time) (team : Team) : Except Err DB :=
  if db.teams.any (fun t => t.Name == team.Name) then .error .ErrTeamExists
  else .ok { db with
    teams := db.teams ++ [{ Name := team.Name, CreatedAt := dbNow, UpdatedAt := dbNow }]
    users := team.Members.foldl (upsertUser dbNow team.Name) db.users }

def GetByName (db : DB) (teamName : String) : Except Err Team :=
  match db.teams.find? (fun t => t.Name == teamName) with
  | none => .error .ErrNotFound
  | some row =>
    .ok { Name := row.Name, CreatedAt := row.CreatedAt, UpdatedAt := row.UpdatedAt
          Members := (orderByUsername (db.users.filter (fun u => u.TeamName == teamName))).map
            (fun u => { ID := u.ID, Username := u.Username, TeamName := teamName,
                        IsActive := u.IsActive, CreatedAt := 0, UpdatedAt := 0 }) }

end teamRepository

namespace pullRequestRepository

def Exists (db : DB) (prID : String) : Bool :=
  db.pull_requests.any (fun r => r.ID == prID)

def GetByID (db : DB) (prID : String) : Except Err PullRequest :=
  match db.pull_requests.find? (fun r => r.ID == prID) with
  | some pr => .ok pr
  | none => .error .ErrNotFound

/-- The `INSERT` names five columns; `created_at` and `updated_at` take their default
`CURRENT_TIMESTAMP`, `merged_at` stays NULL. -/
def Create (db : DB) (dbNow : Time) (pr : PullRequest) : Except Err DB :=
  if db.pull_requests.any (fun r => r.ID == pr.ID) then .error .ErrPRExists
  else .ok { db with pull_requests := db.pull_requests ++
    [{ ID := pr.ID, Name := pr.Name, AuthorID := pr.AuthorID, Status := pr.Status,
       AssignedReviewers := pr.AssignedReviewers, CreatedAt := dbNow, MergedAt := none,
       UpdatedAt := dbNow }] }

def Update (db : DB) (dbNow : Time) (pr : PullRequest) : Except Err DB :=
  if db.pull_requests.countP (fun r => r.ID == pr.ID) = 0 then .error .ErrNotFound
  else .ok { db with pull_requests := db.pull_requests.map (fun r =>
    if r.ID == pr.ID then
      { r with Name := pr.Name, Status := pr.Status, AssignedReviewers := pr.AssignedReviewers,
               UpdatedAt := dbNow }
    else r) }

/-- The conditional update `WHERE id = $1 AND status != 'MERGED'`; when it touches no
row the method asks `Exists`. -/
def Merge (db : DB) (dbNow : Time) (prID : String) (mergedAt : Time) : Except Err DB :=
  let db' : DB := { db with pull_requests := db.pull_requests.map (fun r =>
    if r.ID == prID && r.Status != "MERGED" then
      { r with Status := "MERGED", MergedAt := some mergedAt, UpdatedAt := dbNow }
    else r) }
  if db.pull_requests.countP (fun r => r.ID == prID && r.Status != "MERGED") = 0 then
    if Exists db' prID then .ok db' else .error .ErrNotFound
  else .ok db'

end pullRequestRepository

/-! ## internal/service -/

namespace reviewerSelector

/-- The method `selectRandomReviewers`: the ids of the first `min(len, maxCount)` entries of
the shuffled candidates, in that order. -/
def selectRandomReviewers (rnd : Nat → Nat) (candidates : List User) (maxCount : Nat) :
    List String :=
  if candidates.length = 0 then []
  else
    let shuffled := ShuffleUsers rnd candidates
    let count := if shuffled.length > maxCount then maxCount else shuffled.length
    (shuffled.take count).map (fun u => u.ID)

/-- The method `SelectReviewers`. -/
def SelectReviewers (db : DB) (rnd : Nat → Nat) (author : User) : List String :=
  let candidates := userRepository.GetActiveTeamMembersExcluding db author.TeamName [author.ID]
  if candidates.length = 0 then []
  else selectRandomReviewers rnd candidates 2

/-- The method `SelectReplacementReviewer`. -/
def SelectReplacementReviewer (db : DB) (rnd : Nat → Nat) (teamName : String)
    (excludeUserIDs : List String) : Except Err String :=
  let candidates := userRepository.GetActiveTeamMembersExcluding db teamName excludeUserIDs
  if candidates.length = 0 then .error .ErrNoCandidate
  else
    match selectRandomReviewers rnd candidates 1 with
    | [] => .error .ErrNoCandidate
    | x :: _ => .ok x

end reviewerSelector

/-- The helper `contains` of `service/pr.go`. -/
def contains (slice : List String) (item : String) : Bool :=
  match slice with
  | [] => false
  | s :: rest => if s == item then true else contains rest item

namespace prService

/-- The method `prService.Create`. -/
def Create (db : DB) (env : Env) (req : PRCreateRequest) : Except Err PullRequest × DB :=
  if pullRequestRepository.Exists db req.ID then (.error .ErrPRExists, db)
  else
    match userRepository.GetByID db env.userQueryFault req.AuthorID with
    | .error _ => (.error .ErrNotFound, db)
    | .ok author =>
      if !author.IsActive then (.error .ErrUserNotActive, db)
      else if !teamRepository.Exists db author.TeamName then (.error .ErrNotFound, db)
      else
        let reviewers := reviewerSelector.SelectReviewers db env.rnd author
        let pr : PullRequest :=
          { ID := req.ID, Name := req.Name, AuthorID := req.AuthorID, Status := StatusOpen,
            AssignedReviewers := reviewers, CreatedAt := env.now, MergedAt := none,
            UpdatedAt := 0 }
        match pr.Validate with
        | some e => (.error e, db)
        | none =>
          match pullRequestRepository.Create db env.dbNow pr with
          | .error e => (.error e, db)
          | .ok db' => (.ok pr, db')

/-- The method `prService.Merge`. -/
def Merge (db : DB) (env : Env) (req : PRMergeRequest) : Except Err PullRequest × DB :=
  match pullRequestRepository.GetByID db req.ID with
  | .error e => (.error e, db)
  | .ok pr =>
    if pr.Status == StatusMerged then (.ok pr, db)
    else
      match pullRequestRepository.Merge db env.dbNow req.ID env.now with
      | .error e => (.error e, db)
      | .ok db' =>
        match pullRequestRepository.GetByID db' req.ID with
        | .error e => (.error e, db')
        | .ok mergedPR => (.ok mergedPR, db')

/-- The method `prService.ReassignReviewer`: the updated record and the new reviewer id. -/
def ReassignReviewer (db : DB) (env : Env) (req : PRReassignRequest) :
    Except Err (PullRequest × String) × DB :=
  match pullRequestRepository.GetByID db req.ID with
  | .error e => (.error e, db)
  | .ok pr =>
    if pr.Status == StatusMerged then (.error .ErrPRMerged, db)
    else if !contains pr.AssignedReviewers req.OldReviewer then (.error .ErrNotAssigned, db)
    else
      match userRepository.GetByID db env.userQueryFault req.OldReviewer with
      | .error _ => (.error .ErrNotFound, db)
      | .ok oldReviewer =>
        match reviewerSelector.SelectReplacementReviewer db env.rnd oldReviewer.TeamName
            [pr.AuthorID, req.OldReviewer] with
        | .error e => (.error e, db)
        | .ok newReviewerID =>
          let newReviewers := pr.AssignedReviewers.map (fun reviewer =>
            if reviewer == req.OldReviewer then newReviewerID else reviewer)
          let pr' : PullRequest := { pr with AssignedReviewers := newReviewers }
          match pullRequestRepository.Update db env.dbNow pr' with
          | .error e => (.error e, db)
          | .ok db' => (.ok (pr', newReviewerID), db')

end prService

namespace teamService

/-- The method `teamService.Create`. -/
def Create (db : DB) (env : Env) (team : Team) : Except Err Team × DB :=
  match team.Validate with
  | (some e, _) => (.error e, db)
  | (none, team') =>
    match teamRepository.Create db env.dbNow team' with
    | .error e => (.error e, db)
    | .ok db' => (teamRepository.GetByName db' team'.Name, db')

end teamService

namespace userService

/-- The method `userService.SetActive`. -/
def SetActive (db : DB) (env : Env) (userID : String) (isActive : Bool) :
    Except Err User × DB :=
  match userRepository.GetByID db env.userQueryFault userID with
  | .error e => (.error e, db)
  | .ok _ =>
    match userRepository.SetActive db env.dbNow userID isActive with
    | .error e => (.error e, db)
    | .ok db' => (userRepository.GetByID db' env.userQueryFault userID, db')

end userService

/-! ## Statistics: internal/models/stats.go, internal/repository/stats.go, internal/service/stats.go

Go's `int` is `Int` (the counts are row counts, far from the 64-bit bounds); the `float64`
average is kept as the exact quotient. -/

/-- The struct `models.UserAssignmentStats`. -/
structure UserAssignmentStats where
  UserID : String
  Username : String
  TeamName : String
  IsActive : Bool
  AssignmentCount : Int
  deriving DecidableEq, Repr

/-- The struct `models.PRAssignmentStats`. -/
structure PRAssignmentStats where
  TotalPRs : Int
  OpenPRs : Int
  MergedPRs : Int
  AvgReviewersPerPR : ℚ
  PRsWithNoReviewers : Int
  PRsWithOneReviewer : Int
  PRsWithTwoReviewers : Int
  deriving DecidableEq, Repr

/-- The struct `models.StatsSummary`. -/
structure StatsSummary where
  TotalUsers : Int
  ActiveUsers : Int
  TotalAssignments : Int
  MostAssignedUser : String
  MostAssignments : Int
  deriving DecidableEq, Repr

/-- The struct `models.AssignmentStatsResponse`. -/
structure AssignmentStatsResponse where
  UserStats : List UserAssignmentStats
  PRStats : PRAssignmentStats
  Summary : StatsSummary
  deriving DecidableEq, Repr

/-- The clause `ORDER BY assignment_count DESC, u.username`. -/
def orderByCountThenUsername (rows : List UserAssignmentStats) : List UserAssignmentStats :=
  rows.insertionSort (fun a b =>
    a.AssignmentCount > b.AssignmentCount ∨
      (a.AssignmentCount = b.AssignmentCount ∧ ¬ (b.Username.data < a.Username.data)))

namespace statsRepository

/-- The join condition `pr.assigned_reviewers @> jsonb_build_array(u.id)`: the JSON array
holds the id. -/
def reviews (userID : String) (pr : PullRequest) : Bool :=
  pr.AssignedReviewers.any (fun x => x == userID)

/-- The method `statsRepository.GetAssignmentStats`: one group per active row of `users`
(the grouping columns include the primary key), counting the joined pull requests. -/
def GetAssignmentStats (db : DB) : List UserAssignmentStats :=
  orderByCountThenUsername ((db.users.filter (fun u => u.IsActive == true)).map (fun u =>
    { UserID := u.ID, Username := u.Username, TeamName := u.TeamName, IsActive := u.IsActive,
      AssignmentCount := ((db.pull_requests.countP (reviews u.ID) : Nat) : Int) }))

/-- The method `statsRepository.GetPRAssignmentStats`. -/
def GetPRAssignmentStats (db : DB) : PRAssignmentStats :=
  let prs := db.pull_requests
  { TotalPRs := (prs.length : Int)
    OpenPRs := ((prs.countP (fun r => r.Status == "OPEN") : Nat) : Int)
    MergedPRs := ((prs.countP (fun r => r.Status == "MERGED") : Nat) : Int)
    AvgReviewersPerPR :=
      if prs.length = 0 then 0
      else (((prs.map (fun r => r.AssignedReviewers.length)).sum : Nat) : ℚ) / (prs.length : ℚ)
    PRsWithNoReviewers := ((prs.countP (fun r => r.AssignedReviewers.length == 0) : Nat) : Int)
    PRsWithOneReviewer := ((prs.countP (fun r => r.AssignedReviewers.length == 1) : Nat) : Int)
    PRsWithTwoReviewers := ((prs.countP (fun r => r.AssignedReviewers.length == 2) : Nat) : Int) }

/-- The method `statsRepository.GetUserAssignmentCount`. -/
def GetUserAssignmentCount (db : DB) (userID : String) : Int :=
  ((db.pull_requests.countP (reviews userID) : Nat) : Int)

end statsRepository

namespace statsService

/-- The body of the `for _, stat := range userStats` loop of `calculateSummary`. -/
def summaryStep (summary : StatsSummary) (stat : UserAssignmentStats) : StatsSummary :=
  let s1 : StatsSummary :=
    if stat.IsActive then { summary with ActiveUsers := summary.ActiveUsers + 1 } else summary
  let s2 : StatsSummary := { s1 with TotalAssignments := s1.TotalAssignments + stat.AssignmentCount }
  if stat.AssignmentCount > s2.MostAssignments then
    { s2 with MostAssignments := stat.AssignmentCount, MostAssignedUser := stat.Username }
  else s2

/-- The method `statsService.calculateSummary`. -/
def calculateSummary (userStats : List UserAssignmentStats) (_prStats : PRAssignmentStats) :
    StatsSummary :=
  userStats.foldl summaryStep
    { TotalUsers := (userStats.length : Int), ActiveUsers := 0, TotalAssignments := 0,
      MostAssignedUser := "", MostAssignments := 0 }

/-- The method `statsService.GetAssignmentStats`. -/
def GetAssignmentStats (db : DB) : AssignmentStatsResponse :=
  let userStats := statsRepository.GetAssignmentStats db
  let prStats := statsRepository.GetPRAssignmentStats db
  { UserStats := userStats, PRStats := prStats, Summary := calculateSummary userStats prStats }

/-- The method `statsService.GetUserStats`. -/
def GetUserStats (db : DB) (env : Env) (userID : String) : Except Err UserAssignmentStats :=
  match userRepository.GetByID db env.userQueryFault userID with
  | .error e => .error e
  | .ok user =>
    .ok { UserID := user.ID, Username := user.Username, TeamName := user.TeamName,
          IsActive := user.IsActive,
          AssignmentCount := statsRepository.GetUserAssignmentCount db userID }

end statsService

/-! ## Reads by reviewer: internal/repository/pr.go, internal/service/pr.go -/

/-- The struct `models.PullRequestShort`. -/
structure PullRequestShort where
  ID : String
  Name : String
  AuthorID : String
  Status : PullRequestStatus
  deriving DecidableEq, Repr

/-- The columns `id, name, author_id, status` of a row. -/
def PullRequest.toShort (pr : PullRequest) : PullRequestShort :=
  { ID := pr.ID, Name := pr.Name, AuthorID := pr.AuthorID, Status := pr.Status }

/-- The clause `ORDER BY created_at DESC`. -/
def orderByCreatedAtDesc (rows : List PullRequest) : List PullRequest :=
  rows.insertionSort (fun a b => a.CreatedAt ≥ b.CreatedAt)

/-- The method `pullRequestRepository.GetByReviewer`: the filter
`assigned_reviewers @> $1` with the one-element array of the reviewer id. -/
def pullRequestRepository.GetByReviewer (db : DB) (reviewerID : String) :
    List PullRequestShort :=
  (orderByCreatedAtDesc (db.pull_requests.filter (statsRepository.reviews reviewerID))).map
    PullRequest.toShort

/-- The method `prService.GetByReviewer`. -/
def prService.GetByReviewer (db : DB) (env : Env) (reviewerID : String) :
    Except Err (List PullRequestShort) :=
  match userRepository.GetByID db env.userQueryFault reviewerID with
  | .error e => .error e
  | .ok _ => .ok (pullRequestRepository.GetByReviewer db reviewerID)

/-- The method `teamService.Get`. -/
def teamService.Get (db : DB) (teamName : String) : Except Err Team :=
  teamRepository.GetByName db teamName

/-! ## internal/server: the status codes of two handlers -/

namespace Server

def StatusOK : Nat := 200

def StatusBadRequest : Nat := 400

def StatusNotFound : Nat := 404

def StatusInternalServerError : Nat := 500

/-- Go's result pair `(*T, error)` as a handler tests it: an error, or a pointer that the
handler compares with nil.  The services return a non-nil pointer whenever the error is
nil. -/
def pointerResult {α : Type} (r : Except Err α) : Except Err (Option α) :=
  match r with
  | .error e => .error e
  | .ok a => .ok (some a)

/-- The handler `getTeam` of `GET /team/get`, for the query parameter `team_name`: the
status code of the response. -/
def getTeam (db : DB) (teamName : String) : Nat :=
  if teamName = "" then StatusBadRequest
  else
    match pointerResult (teamService.Get db teamName) with
    | .error _ => StatusInternalServerError
    | .ok none => StatusNotFound
    | .ok (some _) => StatusOK

/-- The body of `POST /users/setIsActive` after a successful `c.Bind`. -/
structure SetUserActiveRequest where
  UserID : String
  IsActive : Bool
  deriving DecidableEq, Repr

/-- The handler `setUserActive` for a body that binds: the status code of the response
and the database the call leaves. -/
def setUserActive (db : DB) (env : Env) (req : SetUserActiveRequest) : Nat × DB :=
  if req.UserID = "" then (StatusBadRequest, db)
  else
    match userService.SetActive db env req.UserID req.IsActive with
    | (r, db') =>
      match pointerResult r with
      | .error _ => (StatusInternalServerError, db')
      | .ok none => (StatusNotFound, db')
      | .ok (some _) => (StatusOK, db')

end Server

/-! ## Sequences of calls -/

/-- One call of the service layer, as the HTTP handlers issue them. -/
inductive Call where
  | teamCreate (team : Team)
  | userSetActive (userID : String) (isActive : Bool)
  | prCreate (req : PRCreateRequest)
  | prMerge (req : PRMergeRequest)
  | prReassign (req : PRReassignRequest)

/-- The database a call leaves behind. -/
def step (db : DB) (c : Env × Call) : DB :=
  match c.2 with
  | .teamCreate team => (teamService.Create db c.1 team).2
  | .userSetActive userID isActive => (userService.SetActive db c.1 userID isActive).2
  | .prCreate req => (prService.Create db c.1 req).2
  | .prMerge req => (prService.Merge db c.1 req).2
  | .prReassign req => (prService.ReassignReviewer db c.1 req).2

/-- The database after a sequence of calls, first call first. -/
def run (db : DB) (calls : List (Env × Call)) : DB := calls.foldl step db

/-- No stored pull request has its author among its reviewers. -/
def NoSelfReview (db : DB) : Prop :=
  ∀ pr ∈ db.pull_requests, pr.AuthorID ∉ pr.AssignedReviewers

/-- The active members of the author's team other than the author: the rows of `users`
with the author's team name, the active flag set and another id. -/
def activeTeammates (db : DB) (author : User) : List User :=
  db.users.filter (fun u => u.TeamName == author.TeamName && u.IsActive && u.ID != author.ID)

/-! ## A worked scenario: team "core" with active members A, B and C -/

def scenarioEnv : Env := { now := 10, dbNow := 20, rnd := fun _ => 0, userQueryFault := none }

def scenarioMember (id : String) : User :=
  { ID := id, Username := id, TeamName := "core", IsActive := true, CreatedAt := 0,
    UpdatedAt := 0 }

def scenarioTeam : Team :=
  { Name := "core", Members := [scenarioMember "A", scenarioMember "B", scenarioMember "C"],
    CreatedAt := 0, UpdatedAt := 0 }

def scenarioRequest : PRCreateRequest := { ID := "pr-1", Name := "first", AuthorID := "A" }

/-- The database after the team was created. -/
def scenarioTeamDB : DB := run DB.empty [(scenarioEnv, .teamCreate scenarioTeam)]

/-- Team creation, then pull request "pr-1" authored by A. -/
def scenarioCalls : List (Env × Call) :=
  [(scenarioEnv, .teamCreate scenarioTeam), (scenarioEnv, .prCreate scenarioRequest)]

/-- The database after `scenarioCalls`. -/
def scenarioDB : DB := run DB.empty scenarioCalls

/-- The record `prService.Create` returns in the scenario. -/
def scenarioReturned : PullRequest :=
  { ID := "pr-1", Name := "first", AuthorID := "A", Status := "OPEN",
    AssignedReviewers := ["C", "B"], CreatedAt := 10, MergedAt := none, UpdatedAt := 0 }

/-- The row of "pr-1" the scenario stores. -/
def scenarioStored : PullRequest :=
  { ID := "pr-1", Name := "first", AuthorID := "A", Status := "OPEN",
    AssignedReviewers := ["C", "B"], CreatedAt := 20, MergedAt := none, UpdatedAt := 20 }

/-- The request to replace reviewer B on "pr-1". -/
def scenarioReassign : PRReassignRequest := { ID := "pr-1", OldReviewer := "B" }

/-- The row of "pr-1" after `scenarioReassign`. -/
def scenarioReassigned : PullRequest :=
  { ID := "pr-1", Name := "first", AuthorID := "A", Status := "OPEN",
    AssignedReviewers := ["C", "C"], CreatedAt := 20, MergedAt := none, UpdatedAt := 20 }

/-- The database after `scenarioCalls` and `scenarioReassign`. -/
def scenarioReassignedDB : DB := (prService.ReassignReviewer scenarioDB scenarioEnv scenarioReassign).2

def scenarioMergeRequest : PRMergeRequest := { ID := "pr-1" }

/-- A later call: other clocks, another random source. -/
def scenarioLaterEnv : Env := { now := 30, dbNow := 40, rnd := fun i => i, userQueryFault := none }

/-- The database after `scenarioCalls` and a merge of "pr-1". -/
def scenarioMergedDB : DB := (prService.Merge scenarioDB scenarioEnv scenarioMergeRequest).2

/-- The row of "pr-1" after the merge. -/
def scenarioMerged : PullRequest :=
  { ID := "pr-1", Name := "first", AuthorID := "A", Status := "MERGED",
    AssignedReviewers := ["C", "B"], CreatedAt := 20, MergedAt := some 10, UpdatedAt := 20 }

/-- Calls made after the merge: a second pull request, a merge and a reassignment of
"pr-1", a deactivation. -/
def scenarioLaterCalls : List (Env × Call) :=
  [(scenarioLaterEnv, .prCreate { ID := "pr-2", Name := "second", AuthorID := "B" }),
   (scenarioLaterEnv, .prMerge scenarioMergeRequest),
   (scenarioLaterEnv, .prReassign scenarioReassign),
   (scenarioLaterEnv, .userSetActive "C" false),
   (scenarioLaterEnv, .prCreate { ID := "pr-1", Name := "again", AuthorID := "C" })]

/-! ## More scenarios -/

/-- A database the calls cannot reach, for the checks of Create: user "ghost" belongs to a
team without a row in `teams`, user "idle" is inactive. -/
def orphanDB : DB :=
  { pull_requests := []
    users := [{ ID := "ghost", Username := "ghost", TeamName := "gone", IsActive := true,
                CreatedAt := 0, UpdatedAt := 0 },
              { ID := "idle", Username := "idle", TeamName := "gone", IsActive := false,
                CreatedAt := 0, UpdatedAt := 0 }]
    teams := [] }

/-- Team "solo": S is active, T is not. -/
def soloTeam : Team :=
  { Name := "solo",
    Members := [{ ID := "S", Username := "S", TeamName := "solo", IsActive := true,
                  CreatedAt := 0, UpdatedAt := 0 },
                { ID := "T", Username := "T", TeamName := "solo", IsActive := false,
                  CreatedAt := 0, UpdatedAt := 0 }],
    CreatedAt := 0, UpdatedAt := 0 }

def soloCalls : List (Env × Call) := [(scenarioEnv, .teamCreate soloTeam)]

/-- The database after team "solo" was created. -/
def soloDB : DB := run DB.empty soloCalls

/-- The row of user S in `soloDB`. -/
def soloAuthor : User :=
  { ID := "S", Username := "S", TeamName := "solo", IsActive := true, CreatedAt := 20,
    UpdatedAt := 20 }

def soloRequest : PRCreateRequest := { ID := "pr-9", Name := "alone", AuthorID := "S" }

/-- The database after S opened "pr-9". -/
def soloPRDB : DB := run DB.empty (soloCalls ++ [(scenarioEnv, .prCreate soloRequest)])

/-- Team "other" takes B over from team "core" and brings D. -/
def otherTeam : Team :=
  { Name := "other",
    Members := [{ ID := "B", Username := "B", TeamName := "other", IsActive := true,
                  CreatedAt := 0, UpdatedAt := 0 },
                { ID := "D", Username := "D", TeamName := "other", IsActive := true,
                  CreatedAt := 0, UpdatedAt := 0 }],
    CreatedAt := 0, UpdatedAt := 0 }

/-- The scenario, then team "other". -/
def movedCalls : List (Env × Call) := scenarioCalls ++ [(scenarioLaterEnv, .teamCreate otherTeam)]

/-- The database after `movedCalls`: "pr-1" of A (team "core") is reviewed by C and B, and
B now belongs to team "other". -/
def movedDB : DB := run DB.empty movedCalls

/-- The row of "pr-1" after B was replaced in `movedDB`. -/
def movedReassigned : PullRequest :=
  { ID := "pr-1", Name := "first", AuthorID := "A", Status := "OPEN",
    AssignedReviewers := ["C", "D"], CreatedAt := 20, MergedAt := none, UpdatedAt := 20 }

/-- The scenario, then C is deactivated: nobody is left to replace B on "pr-1". -/
def noCandidateDB : DB :=
  run DB.empty (scenarioCalls ++ [(scenarioLaterEnv, .userSetActive "C" false)])

/-- A record with three reviewers. -/
def crowdedPR : PullRequest :=
  { ID := "pr-3", Name := "third", AuthorID := "A", Status := "OPEN",
    AssignedReviewers := ["B", "C", "D"], CreatedAt := 0, MergedAt := none, UpdatedAt := 0 }

/-- The row of the author A of "pr-1" in `movedDB`. -/
def movedAuthor : User :=
  { ID := "A", Username := "A", TeamName := "core", IsActive := true, CreatedAt := 20,
    UpdatedAt := 20 }

/-- The per-user statistics of `soloDB`: one active user, no pull request. -/
def soloStats : List UserAssignmentStats :=
  [{ UserID := "S", Username := "S", TeamName := "solo", IsActive := true,
     AssignmentCount := 0 }]

/-- A per-user list with a tie at the top: B and C both have two assignments. -/
def tiedStats : List UserAssignmentStats :=
  [{ UserID := "A", Username := "A", TeamName := "core", IsActive := true,
     AssignmentCount := 1 },
   { UserID := "B", Username := "B", TeamName := "core", IsActive := true,
     AssignmentCount := 2 },
   { UserID := "C", Username := "C", TeamName := "core", IsActive := false,
     AssignmentCount := 2 }]

/-- The scenario's environment with the user store down. -/
def faultEnv : Env :=
  { now := 10, dbNow := 20, rnd := fun _ => 0, userQueryFault := some "connection refused" }

/-- The order `ORDER BY assignment_count DESC, u.username` imposes on two entries, the
first before the second. -/
def countDescThenUsername (a b : UserAssignmentStats) : Prop :=
  b.AssignmentCount < a.AssignmentCount ∨
    (a.AssignmentCount = b.AssignmentCount ∧ a.Username.data ≤ b.Username.data)

/-- The entry of a user in the per-user statistics. -/
def userEntry (db : DB) (u : User) : UserAssignmentStats :=
  { UserID := u.ID, Username := u.Username, TeamName := u.TeamName, IsActive := u.IsActive,
    AssignmentCount :=
      ((db.pull_requests.countP (fun pr => decide (u.ID ∈ pr.AssignedReviewers)) : Nat) : Int) }

/-- A member of team "core" that `Team.Validate` rejects: no team name of its own. -/
def unnamedMember : User :=
  { ID := "E", Username := "E", TeamName := "", IsActive := true, CreatedAt := 0,
    UpdatedAt := 0 }

/-- Team "next": the first member comes from team "core", the second has no team name. -/
def rejectedTeam : Team :=
  { Name := "next", Members := [scenarioMember "A", unnamedMember, scenarioMember "B"],
    CreatedAt := 0, UpdatedAt := 0 }

/-- Team "next" with members that pass validation. -/
def acceptedTeam : Team :=
  { Name := "next", Members := [scenarioMember "A", scenarioMember "B"],
    CreatedAt := 0, UpdatedAt := 0 }

/-! ## Lists: the shuffle is a permutation -/

theorem cons_set_perm {α : Type} (x b : α) :
    ∀ (xs : List α) (j : Nat), xs[j]? = some b → (b :: xs.set j x).Perm (x :: xs) := by
  intro xs
  induction xs with
  | nil => intro j h; simp at h
  | cons y ys ih =>
    intro j h
    cases j with
    | zero =>
      simp at h
      subst h
      simpa using List.Perm.swap x y ys
    | succ k =>
      simp at h
      have h1 : (b :: y :: ys.set k x).Perm (y :: b :: ys.set k x) := List.Perm.swap _ _ _
      have h2 : (y :: b :: ys.set k x).Perm (y :: x :: ys) := List.Perm.cons y (ih k h)
      have h3 : (y :: x :: ys).Perm (x :: y :: ys) := List.Perm.swap _ _ _
      simpa using (h1.trans h2).trans h3

theorem swap_perm {α : Type} : ∀ (l : List α) (i j : Nat), (swap l i j).Perm l := by
  intro l
  induction l with
  | nil => intro i j; simp [swap]
  | cons x xs ih =>
    intro i j
    cases i with
    | zero =>
      cases j with
      | zero => simp [swap]
      | succ k =>
        cases hk : xs[k]? with
        | none => simp [swap, hk]
        | some b => simpa [swap, hk] using cons_set_perm x b xs k hk
    | succ m =>
      cases j with
      | zero =>
        cases hm : xs[m]? with
        | none => simp [swap, hm]
        | some a => simpa [swap, hm] using cons_set_perm x a xs m hm
      | succ k =>
        have h := ih m k
        unfold swap at h ⊢
        cases hm : xs[m]? with
        | none => simp [hm]
        | some a =>
          cases hk : xs[k]? with
          | none => simp [hm, hk]
          | some b =>
            simp only [hm, hk] at h
            simpa [hm, hk] using h

theorem shuffleLoop_perm {α : Type} (rnd : Nat → Nat) :
    ∀ (n : Nat) (l : List α), (shuffleLoop rnd n l).Perm l := by
  intro n
  induction n with
  | zero => intro l; simp [shuffleLoop]
  | succ i ih =>
    intro l
    simp only [shuffleLoop]
    exact (ih _).trans (swap_perm l _ _)

theorem Shuffle_perm {α : Type} (rnd : Nat → Nat) (items : List α) :
    (Shuffle rnd items).Perm items :=
  shuffleLoop_perm rnd _ items

theorem orderByUsername_perm (rows : List User) : (orderByUsername rows).Perm rows :=
  List.perm_insertionSort _ rows

/-! ## The repositories -/

theorem mem_GetActiveTeamMembersExcluding (db : DB) (teamName : String) (ex : List String)
    (u : User) :
    u ∈ userRepository.GetActiveTeamMembersExcluding db teamName ex ↔
      u ∈ db.users ∧ u.TeamName = teamName ∧ u.IsActive = true ∧ u.ID ∉ ex := by
  unfold userRepository.GetActiveTeamMembersExcluding userRepository.GetActiveTeamMembers
  split
  · rename_i h
    have hex : ex = [] := List.length_eq_zero.mp h
    subst hex
    rw [(orderByUsername_perm _).mem_iff]
    simp [List.mem_filter]
  · rw [(orderByUsername_perm _).mem_iff]
    simp only [List.mem_filter, Bool.and_eq_true, beq_iff_eq, List.all_eq_true, bne_iff_ne]
    constructor
    · rintro ⟨hu, ⟨ht, ha⟩, hx⟩
      exact ⟨hu, ht, ha, fun hmem => hx _ hmem rfl⟩
    · rintro ⟨hu, ht, ha, hx⟩
      exact ⟨hu, ⟨ht, ha⟩, fun x hmem heq => hx (heq ▸ hmem)⟩

/-- The pool is, up to order, the rows of `users` that pass the `WHERE` clause. -/
theorem GetActiveTeamMembersExcluding_perm (db : DB) (teamName : String) (ex : List String) :
    (userRepository.GetActiveTeamMembersExcluding db teamName ex).Perm
      (db.users.filter (fun u =>
        u.TeamName == teamName && u.IsActive == true && ex.all (fun x => u.ID != x))) := by
  unfold userRepository.GetActiveTeamMembersExcluding userRepository.GetActiveTeamMembers
  split
  · rename_i h
    have hex : ex = [] := List.length_eq_zero.mp h
    subst hex
    simpa using orderByUsername_perm _
  · exact orderByUsername_perm _

theorem GetActiveTeamMembersExcluding_nodup (db : DB) (teamName : String) (ex : List String)
    (h : (db.users.map (·.ID)).Nodup) :
    ((userRepository.GetActiveTeamMembersExcluding db teamName ex).map (·.ID)).Nodup := by
  have hp := (GetActiveTeamMembersExcluding_perm db teamName ex).map (·.ID)
  rw [hp.nodup_iff]
  exact h.sublist ((List.filter_sublist _).map _)

theorem selectRandomReviewers_eq (rnd : Nat → Nat) (candidates : List User) (maxCount : Nat) :
    reviewerSelector.selectRandomReviewers rnd candidates maxCount =
      ((ShuffleUsers rnd candidates).take maxCount).map (fun u => u.ID) := by
  unfold reviewerSelector.selectRandomReviewers
  split
  · rename_i h
    have hc : candidates = [] := List.length_eq_zero.mp h
    subst hc
    simp [ShuffleUsers, Shuffle, shuffleLoop]
  · simp only
    split
    · rfl
    · rename_i h
      rw [List.take_of_length_le (by omega), List.take_of_length_le (by omega)]

theorem SelectReviewers_eq (db : DB) (rnd : Nat → Nat) (author : User) :
    reviewerSelector.SelectReviewers db rnd author =
      ((ShuffleUsers rnd
        (userRepository.GetActiveTeamMembersExcluding db author.TeamName [author.ID])).take 2).map
        (fun u => u.ID) := by
  unfold reviewerSelector.SelectReviewers
  simp only
  split
  · rename_i h
    rw [List.length_eq_zero.mp h]
    simp [ShuffleUsers, Shuffle, shuffleLoop]
  · exact selectRandomReviewers_eq _ _ _

theorem mem_take_shuffle {rnd : Nat → Nat} {candidates : List User} {k : Nat} {x : String}
    (h : x ∈ ((ShuffleUsers rnd candidates).take k).map (fun u => u.ID)) :
    ∃ u ∈ candidates, u.ID = x := by
  obtain ⟨u, hu, rfl⟩ := List.mem_map.mp h
  exact ⟨u, (Shuffle_perm rnd candidates).mem_iff.mp (List.mem_of_mem_take hu), rfl⟩

theorem nodup_take_shuffle (rnd : Nat → Nat) (candidates : List User) (k : Nat)
    (h : (candidates.map (·.ID)).Nodup) :
    (((ShuffleUsers rnd candidates).take k).map (fun u => u.ID)).Nodup := by
  have hp := (Shuffle_perm rnd candidates).map (fun u : User => u.ID)
  have hn : ((ShuffleUsers rnd candidates).map (fun u => u.ID)).Nodup := hp.nodup_iff.mpr h
  exact hn.sublist ((List.take_sublist _ _).map _)

theorem length_take_shuffle (rnd : Nat → Nat) (candidates : List User) (k : Nat) :
    (((ShuffleUsers rnd candidates).take k).map (fun u => u.ID)).length =
      min k candidates.length := by
  simp [ShuffleUsers, (Shuffle_perm rnd candidates).length_eq]

theorem SelectReplacementReviewer_ok {db : DB} {rnd : Nat → Nat} {teamName : String}
    {ex : List String} {x : String}
    (h : reviewerSelector.SelectReplacementReviewer db rnd teamName ex = .ok x) :
    ∃ u ∈ db.users, u.ID = x ∧ u.TeamName = teamName ∧ u.IsActive = true ∧ x ∉ ex := by
  unfold reviewerSelector.SelectReplacementReviewer at h
  simp only at h
  split at h
  · cases h
  · split at h
    · cases h
    · rename_i y ys hsel
      cases h
      rw [selectRandomReviewers_eq] at hsel
      have hx : x ∈ ((ShuffleUsers rnd
          (userRepository.GetActiveTeamMembersExcluding db teamName ex)).take 1).map
          (fun u => u.ID) := by rw [hsel]; simp
      obtain ⟨u, hu, rfl⟩ := mem_take_shuffle hx
      obtain ⟨h1, h2, h3, h4⟩ := (mem_GetActiveTeamMembersExcluding db teamName ex u).mp hu
      exact ⟨u, h1, rfl, h2, h3, h4⟩

theorem find?_of_nodup {α : Type} (key : α → String) :
    ∀ (l : List α) (a : α), (l.map key).Nodup → a ∈ l →
      l.find? (fun r => key r == key a) = some a := by
  intro l
  induction l with
  | nil => intro a _ h; simp at h
  | cons x xs ih =>
    intro a hn ha
    rw [List.map_cons, List.nodup_cons] at hn
    rcases List.mem_cons.mp ha with rfl | hmem
    · simp
    · have hne : key x ≠ key a := fun he => hn.1 (he ▸ List.mem_map_of_mem key hmem)
      rw [List.find?_cons_of_neg _ (by simpa using hne)]
      exact ih a hn.2 hmem

theorem map_key_map {α : Type} (key : α → String) (f : α → α) (hf : ∀ r, key (f r) = key r)
    (l : List α) : (l.map f).map key = l.map key := by
  simp [List.map_map, Function.comp_def, hf]

theorem pr_GetByID_ok {db : DB} {prID : String} {pr : PullRequest}
    (h : pullRequestRepository.GetByID db prID = .ok pr) :
    pr ∈ db.pull_requests ∧ pr.ID = prID := by
  unfold pullRequestRepository.GetByID at h
  split at h
  · rename_i r hr
    cases h
    exact ⟨List.mem_of_find?_eq_some hr, by simpa using List.find?_some hr⟩
  · cases h

theorem pr_GetByID_of_mem {db : DB} {pr : PullRequest}
    (hn : (db.pull_requests.map (·.ID)).Nodup) (h : pr ∈ db.pull_requests) :
    pullRequestRepository.GetByID db pr.ID = .ok pr := by
  unfold pullRequestRepository.GetByID
  rw [find?_of_nodup (fun r : PullRequest => r.ID) _ _ hn h]

theorem pr_GetByID_error {db : DB} {prID : String} {e : Err}
    (h : pullRequestRepository.GetByID db prID = .error e) :
    e = .ErrNotFound ∧ ∀ r ∈ db.pull_requests, r.ID ≠ prID := by
  unfold pullRequestRepository.GetByID at h
  split at h
  · cases h
  · rename_i hr
    cases h
    refine ⟨rfl, fun r hmem heq => ?_⟩
    have := List.find?_eq_none.mp hr r hmem
    simp [heq] at this

theorem pr_Exists_false {db : DB} {prID : String} :
    pullRequestRepository.Exists db prID = false ↔ ∀ r ∈ db.pull_requests, r.ID ≠ prID := by
  simp [pullRequestRepository.Exists]

theorem pr_Exists_of_mem {db : DB} {pr : PullRequest} (h : pr ∈ db.pull_requests) :
    pullRequestRepository.Exists db pr.ID = true := by
  simp only [pullRequestRepository.Exists, List.any_eq_true, beq_iff_eq]
  exact ⟨pr, h, rfl⟩

theorem user_GetByID_ok {db : DB} {fault : Option String} {userID : String} {u : User}
    (h : userRepository.GetByID db fault userID = .ok u) :
    fault = none ∧ u ∈ db.users ∧ u.ID = userID := by
  unfold userRepository.GetByID at h
  split at h
  · cases h
  · split at h
    · rename_i r hr
      cases h
      exact ⟨rfl, List.mem_of_find?_eq_some hr, by simpa using List.find?_some hr⟩
    · cases h

/-! ## The services: what a successful call did, and that a failed call wrote nothing -/

theorem Create_ok {db db' : DB} {env : Env} {req : PRCreateRequest} {pr : PullRequest}
    (h : prService.Create db env req = (.ok pr, db')) :
    pullRequestRepository.Exists db req.ID = false ∧
    ∃ author, userRepository.GetByID db env.userQueryFault req.AuthorID = .ok author ∧
      author.IsActive = true ∧ teamRepository.Exists db author.TeamName = true ∧
      pr = { ID := req.ID, Name := req.Name, AuthorID := req.AuthorID, Status := StatusOpen,
             AssignedReviewers := reviewerSelector.SelectReviewers db env.rnd author,
             CreatedAt := env.now, MergedAt := none, UpdatedAt := 0 } ∧
      pr.Validate = none ∧
      db' = { db with pull_requests := db.pull_requests ++
        [{ ID := req.ID, Name := req.Name, AuthorID := req.AuthorID, Status := StatusOpen,
           AssignedReviewers := reviewerSelector.SelectReviewers db env.rnd author,
           CreatedAt := env.dbNow, MergedAt := none, UpdatedAt := env.dbNow }] } := by
  unfold prService.Create at h
  split at h
  · cases h
  · rename_i hex
    refine ⟨by simpa using hex, ?_⟩
    split at h
    · cases h
    · rename_i author hauthor
      split at h
      · cases h
      · rename_i hact
        split at h
        · cases h
        · rename_i hteam
          simp only at h
          split at h
          · cases h
          · rename_i hval
            unfold pullRequestRepository.Create at h
            simp only at h
            rw [if_neg (by simpa [pullRequestRepository.Exists] using hex)] at h
            simp only [Prod.mk.injEq, Except.ok.injEq] at h
            refine ⟨author, hauthor, by simpa using hact, by simpa using hteam, h.1.symm,
              ?_, h.2.symm⟩
            rw [← h.1]; exact hval

theorem Create_cases (db : DB) (env : Env) (req : PRCreateRequest) :
    (∃ e, prService.Create db env req = (.error e, db)) ∨
      ∃ pr db', prService.Create db env req = (.ok pr, db') := by
  unfold prService.Create
  dsimp only
  repeat' split
  all_goals first
    | exact Or.inl ⟨_, rfl⟩
    | exact Or.inr ⟨_, _, rfl⟩

theorem Create_error {db : DB} {env : Env} {req : PRCreateRequest} {e : Err}
    (h : (prService.Create db env req).1 = .error e) : (prService.Create db env req).2 = db := by
  rcases Create_cases db env req with ⟨e', he⟩ | ⟨pr, db', hok⟩
  · rw [he]
  · rw [hok] at h; cases h

/-- The rows of `pull_requests` after the conditional update of `pullRequestRepository.Merge`. -/
theorem repoMerge_of_open {db : DB} {prID : String} {pr : PullRequest} (dbNow t : Time)
    (h : pullRequestRepository.GetByID db prID = .ok pr) (hs : pr.Status ≠ StatusMerged) :
    pullRequestRepository.Merge db dbNow prID t = .ok { db with
      pull_requests := db.pull_requests.map (fun r =>
        if r.ID == prID && r.Status != "MERGED" then
          { r with Status := "MERGED", MergedAt := some t, UpdatedAt := dbNow }
        else r) } := by
  obtain ⟨hmem, hid⟩ := pr_GetByID_ok h
  unfold pullRequestRepository.Merge
  have hpos : db.pull_requests.countP (fun r => r.ID == prID && r.Status != "MERGED") ≠ 0 := by
    intro h0
    have := List.countP_eq_zero.mp h0 pr hmem
    simp [hid] at this
    exact hs this
  simp only [if_neg hpos]

theorem GetByID_after_repoMerge {db : DB} {prID : String} {pr : PullRequest} (dbNow t : Time)
    (h : pullRequestRepository.GetByID db prID = .ok pr) (hs : pr.Status ≠ StatusMerged) :
    pullRequestRepository.GetByID { db with
      pull_requests := db.pull_requests.map (fun r =>
        if r.ID == prID && r.Status != "MERGED" then
          { r with Status := "MERGED", MergedAt := some t, UpdatedAt := dbNow }
        else r) } prID =
      .ok { pr with Status := "MERGED", MergedAt := some t, UpdatedAt := dbNow } := by
  obtain ⟨_, hid⟩ := pr_GetByID_ok h
  unfold pullRequestRepository.GetByID at h ⊢
  simp only [List.find?_map]
  have hcomp : ((fun r : PullRequest => r.ID == prID) ∘ fun r : PullRequest =>
      if (r.ID == prID && r.Status != "MERGED") = true then
        { r with Status := "MERGED", MergedAt := some t, UpdatedAt := dbNow }
      else r) = fun r : PullRequest => r.ID == prID := by
    funext r
    simp only [Function.comp]
    split <;> rfl
  rw [hcomp]
  split at h
  · rename_i r hr
    cases h
    rw [hr]
    have hs' : pr.Status ≠ "MERGED" := hs
    simp [hid, hs']
  · cases h

theorem Merge_of_merged {db : DB} {env : Env} {req : PRMergeRequest} {pr : PullRequest}
    (h : pullRequestRepository.GetByID db req.ID = .ok pr) (hs : pr.Status = StatusMerged) :
    prService.Merge db env req = (.ok pr, db) := by
  unfold prService.Merge
  rw [h]
  simp [hs]

theorem Merge_of_open {db : DB} {env : Env} {req : PRMergeRequest} {pr : PullRequest}
    (h : pullRequestRepository.GetByID db req.ID = .ok pr) (hs : pr.Status ≠ StatusMerged) :
    prService.Merge db env req =
      (.ok { pr with Status := "MERGED", MergedAt := some env.now, UpdatedAt := env.dbNow },
       { db with pull_requests := db.pull_requests.map (fun r =>
          if r.ID == req.ID && r.Status != "MERGED" then
            { r with Status := "MERGED", MergedAt := some env.now, UpdatedAt := env.dbNow }
          else r) }) := by
  unfold prService.Merge
  rw [h]
  simp only [beq_iff_eq, if_neg hs]
  rw [repoMerge_of_open env.dbNow env.now h hs]
  simp only
  rw [GetByID_after_repoMerge env.dbNow env.now h hs]

theorem Merge_of_missing {db : DB} {env : Env} {req : PRMergeRequest} {e : Err}
    (h : pullRequestRepository.GetByID db req.ID = .error e) :
    prService.Merge db env req = (.error e, db) := by
  unfold prService.Merge
  rw [h]

theorem Reassign_ok {db db' : DB} {env : Env} {req : PRReassignRequest} {pr' : PullRequest}
    {newID : String} (h : prService.ReassignReviewer db env req = (.ok (pr', newID), db')) :
    ∃ pr oldReviewer, pullRequestRepository.GetByID db req.ID = .ok pr ∧
      pr.Status ≠ StatusMerged ∧ contains pr.AssignedReviewers req.OldReviewer = true ∧
      userRepository.GetByID db env.userQueryFault req.OldReviewer = .ok oldReviewer ∧
      reviewerSelector.SelectReplacementReviewer db env.rnd oldReviewer.TeamName
        [pr.AuthorID, req.OldReviewer] = .ok newID ∧
      pr' = { pr with AssignedReviewers := pr.AssignedReviewers.map (fun reviewer =>
        if reviewer == req.OldReviewer then newID else reviewer) } ∧
      pullRequestRepository.Update db env.dbNow pr' = .ok db' := by
  unfold prService.ReassignReviewer at h
  split at h
  · cases h
  · rename_i pr hpr
    split at h
    · cases h
    · rename_i hst
      split at h
      · cases h
      · rename_i hc
        split at h
        · cases h
        · rename_i old hold
          split at h
          · cases h
          · rename_i new hnew
            dsimp only at h
            split at h
            · cases h
            · rename_i db2 hupd
              simp only [Prod.mk.injEq, Except.ok.injEq] at h
              obtain ⟨⟨h1, h2⟩, h3⟩ := h
              subst h2 h3
              refine ⟨pr, old, hpr, by simpa using hst, by simpa using hc, hold, hnew,
                h1.symm, ?_⟩
              rw [← h1]; exact hupd

theorem Reassign_cases (db : DB) (env : Env) (req : PRReassignRequest) :
    (∃ e, prService.ReassignReviewer db env req = (.error e, db)) ∨
      ∃ r db', prService.ReassignReviewer db env req = (.ok r, db') := by
  unfold prService.ReassignReviewer
  dsimp only
  repeat' split
  all_goals first
    | exact Or.inl ⟨_, rfl⟩
    | exact Or.inr ⟨_, _, rfl⟩

/-- The rows of `pull_requests` after a successful `pullRequestRepository.Update`. -/
theorem repoUpdate_ok {db db' : DB} {dbNow : Time} {pr : PullRequest}
    (h : pullRequestRepository.Update db dbNow pr = .ok db') :
    db' = { db with pull_requests := db.pull_requests.map (fun r =>
      if r.ID == pr.ID then
        { r with Name := pr.Name, Status := pr.Status,
                 AssignedReviewers := pr.AssignedReviewers, UpdatedAt := dbNow }
      else r) } := by
  unfold pullRequestRepository.Update at h
  split at h
  · cases h
  · cases h; rfl

/-! ## The primary keys survive every call -/

theorem upsertUser_ids_nodup (dbNow : Time) (teamName : String) (users : List User) (m : User)
    (h : (users.map (·.ID)).Nodup) : ((upsertUser dbNow teamName users m).map (·.ID)).Nodup := by
  unfold upsertUser
  split
  · rw [map_key_map (fun u : User => u.ID)]
    · exact h
    · intro r; dsimp only; split <;> rfl
  · rename_i hany
    rw [List.map_append, List.nodup_append]
    refine ⟨h, by simp, ?_⟩
    intro a ha hb
    simp only [List.map_cons, List.map_nil, List.mem_singleton] at hb
    subst hb
    obtain ⟨u, hu, hid⟩ := List.mem_map.mp ha
    apply hany
    simp only [List.any_eq_true, beq_iff_eq]
    exact ⟨u, hu, hid⟩

theorem foldl_upsertUser_ids_nodup (dbNow : Time) (teamName : String) :
    ∀ (ms : List User) (users : List User), (users.map (·.ID)).Nodup →
      ((ms.foldl (upsertUser dbNow teamName) users).map (·.ID)).Nodup := by
  intro ms
  induction ms with
  | nil => intro users h; exact h
  | cons m rest ih =>
    intro users h
    exact ih _ (upsertUser_ids_nodup dbNow teamName users m h)

theorem teamRepoCreate_ok {db db' : DB} {dbNow : Time} {team : Team}
    (h : teamRepository.Create db dbNow team = .ok db') :
    (∀ t ∈ db.teams, t.Name ≠ team.Name) ∧
    db' = { db with
      teams := db.teams ++ [{ Name := team.Name, CreatedAt := dbNow, UpdatedAt := dbNow }]
      users := team.Members.foldl (upsertUser dbNow team.Name) db.users } := by
  unfold teamRepository.Create at h
  split at h
  · cases h
  · rename_i hany
    cases h
    refine ⟨?_, rfl⟩
    intro t ht hname
    apply hany
    simp only [List.any_eq_true, beq_iff_eq]
    exact ⟨t, ht, hname⟩

theorem teamCreate_cases (db : DB) (env : Env) (team : Team) :
    (teamService.Create db env team).2 = db ∨
      ∃ team', teamRepository.Create db env.dbNow team' = .ok (teamService.Create db env team).2 := by
  unfold teamService.Create
  split
  · exact Or.inl rfl
  · rename_i team' _
    split
    · exact Or.inl rfl
    · rename_i db' hcreate
      exact Or.inr ⟨team', hcreate⟩

theorem teamCreate_pull_requests (db : DB) (env : Env) (team : Team) :
    (teamService.Create db env team).2.pull_requests = db.pull_requests := by
  rcases teamCreate_cases db env team with h | ⟨team', h⟩
  · rw [h]
  · rw [(teamRepoCreate_ok h).2]

theorem teamCreate_wf (db : DB) (env : Env) (team : Team) (hwf : db.wf) :
    (teamService.Create db env team).2.wf := by
  rcases teamCreate_cases db env team with h | ⟨team', h⟩
  · rw [h]; exact hwf
  · obtain ⟨hnew, hdb⟩ := teamRepoCreate_ok h
    rw [hdb]
    refine ⟨hwf.1, foldl_upsertUser_ids_nodup _ _ _ _ hwf.2.1, ?_⟩
    simp only [List.map_append, List.map_cons, List.map_nil]
    rw [List.nodup_append]
    refine ⟨hwf.2.2, by simp, ?_⟩
    intro a ha hb
    simp only [List.mem_singleton] at hb
    subst hb
    obtain ⟨t, ht, hid⟩ := List.mem_map.mp ha
    exact hnew t ht hid

theorem setActive_cases (db : DB) (env : Env) (userID : String) (isActive : Bool) :
    (userService.SetActive db env userID isActive).2 = db ∨
      (userService.SetActive db env userID isActive).2 = { db with users := db.users.map (fun u =>
        if u.ID == userID then { u with IsActive := isActive, UpdatedAt := env.dbNow } else u) } := by
  unfold userService.SetActive
  split
  · exact Or.inl rfl
  · split
    · exact Or.inl rfl
    · rename_i db' hset
      unfold userRepository.SetActive at hset
      split at hset
      · cases hset
      · cases hset; exact Or.inr rfl

theorem setActive_pull_requests (db : DB) (env : Env) (userID : String) (isActive : Bool) :
    (userService.SetActive db env userID isActive).2.pull_requests = db.pull_requests := by
  rcases setActive_cases db env userID isActive with h | h <;> rw [h]

theorem setActive_wf (db : DB) (env : Env) (userID : String) (isActive : Bool) (hwf : db.wf) :
    (userService.SetActive db env userID isActive).2.wf := by
  rcases setActive_cases db env userID isActive with h | h
  · rw [h]; exact hwf
  · rw [h]
    refine ⟨hwf.1, ?_, hwf.2.2⟩
    rw [map_key_map (fun u : User => u.ID)]
    · exact hwf.2.1
    · intro r; dsimp only; split <;> rfl

theorem prCreate_wf (db : DB) (env : Env) (req : PRCreateRequest) (hwf : db.wf) :
    (prService.Create db env req).2.wf := by
  rcases Create_cases db env req with ⟨e, he⟩ | ⟨pr, db', hok⟩
  · rw [he]; exact hwf
  · rw [hok]
    obtain ⟨hex, author, -, -, -, -, -, hdb⟩ := Create_ok hok
    rw [hdb]
    refine ⟨?_, hwf.2.1, hwf.2.2⟩
    simp only [List.map_append, List.map_cons, List.map_nil]
    rw [List.nodup_append]
    refine ⟨hwf.1, by simp, ?_⟩
    intro a ha hb
    simp only [List.mem_singleton] at hb
    subst hb
    obtain ⟨r, hr, hid⟩ := List.mem_map.mp ha
    exact pr_Exists_false.mp hex r hr hid

/-- The three outcomes of `prService.Merge`. -/
theorem Merge_cases (db : DB) (env : Env) (req : PRMergeRequest) :
    (prService.Merge db env req).2 = db ∨
      ∃ pr, pullRequestRepository.GetByID db req.ID = .ok pr ∧ pr.Status ≠ StatusMerged ∧
        (prService.Merge db env req).2 = { db with pull_requests := db.pull_requests.map (fun r =>
          if r.ID == req.ID && r.Status != "MERGED" then
            { r with Status := "MERGED", MergedAt := some env.now, UpdatedAt := env.dbNow }
          else r) } := by
  cases hget : pullRequestRepository.GetByID db req.ID with
  | error e => left; rw [Merge_of_missing hget]
  | ok pr =>
    by_cases hs : pr.Status = StatusMerged
    · left; rw [Merge_of_merged hget hs]
    · right; exact ⟨pr, rfl, hs, by rw [Merge_of_open hget hs]⟩

theorem prMerge_wf (db : DB) (env : Env) (req : PRMergeRequest) (hwf : db.wf) :
    (prService.Merge db env req).2.wf := by
  rcases Merge_cases db env req with h | ⟨pr, -, -, h⟩
  · rw [h]; exact hwf
  · rw [h]
    refine ⟨?_, hwf.2.1, hwf.2.2⟩
    rw [map_key_map (fun r : PullRequest => r.ID)]
    · exact hwf.1
    · intro r; dsimp only; split <;> rfl

theorem prReassign_wf (db : DB) (env : Env) (req : PRReassignRequest) (hwf : db.wf) :
    (prService.ReassignReviewer db env req).2.wf := by
  rcases Reassign_cases db env req with ⟨e, he⟩ | ⟨⟨pr', newID⟩, db', hok⟩
  · rw [he]; exact hwf
  · rw [hok]
    obtain ⟨pr, old, -, -, -, -, -, -, hupd⟩ := Reassign_ok hok
    rw [repoUpdate_ok hupd]
    refine ⟨?_, hwf.2.1, hwf.2.2⟩
    rw [map_key_map (fun r : PullRequest => r.ID)]
    · exact hwf.1
    · intro r; dsimp only; split <;> rfl

theorem step_wf (db : DB) (c : Env × Call) (hwf : db.wf) : (step db c).wf := by
  obtain ⟨env, call⟩ := c
  cases call with
  | teamCreate team => exact teamCreate_wf db env team hwf
  | userSetActive userID isActive => exact setActive_wf db env userID isActive hwf
  | prCreate req => exact prCreate_wf db env req hwf
  | prMerge req => exact prMerge_wf db env req hwf
  | prReassign req => exact prReassign_wf db env req hwf

/-- Induction over a sequence of calls. -/
theorem run_induction (P : DB → Prop) (hstep : ∀ db c, P db → P (step db c)) :
    ∀ (calls : List (Env × Call)) (db : DB), P db → P (run db calls) := by
  intro calls
  induction calls with
  | nil => intro db h; exact h
  | cons c rest ih => intro db h; exact ih _ (hstep db c h)

theorem run_wf (calls : List (Env × Call)) (db : DB) (hwf : db.wf) : (run db calls).wf :=
  run_induction DB.wf step_wf calls db hwf

theorem empty_wf : DB.empty.wf := by
  simp [DB.wf, DB.empty]

/-! ## Lookups after a write -/

theorem find?_map_key {α : Type} (key : α → String) (f : α → α) (hf : ∀ r, key (f r) = key r)
    (k : String) :
    ∀ l : List α, (l.map f).find? (fun r => key r == k) =
      (l.find? (fun r => key r == k)).map f := by
  intro l
  induction l with
  | nil => rfl
  | cons x xs ih =>
    simp only [List.map_cons, List.find?_cons, hf]
    split
    · rfl
    · exact ih

theorem GetByID_map {db : DB} {prID : String} {pr : PullRequest} (f : PullRequest → PullRequest)
    (hf : ∀ r, (f r).ID = r.ID) (h : pullRequestRepository.GetByID db prID = .ok pr) :
    pullRequestRepository.GetByID { db with pull_requests := db.pull_requests.map f } prID =
      .ok (f pr) := by
  unfold pullRequestRepository.GetByID at h ⊢
  dsimp only
  rw [find?_map_key (fun r : PullRequest => r.ID) f hf]
  split at h
  · rename_i r hr
    cases h
    rw [hr]
    rfl
  · cases h

theorem GetByID_map_error {db : DB} {prID : String} {e : Err} (f : PullRequest → PullRequest)
    (hf : ∀ r, (f r).ID = r.ID) (h : pullRequestRepository.GetByID db prID = .error e) :
    pullRequestRepository.GetByID { db with pull_requests := db.pull_requests.map f } prID =
      .error e := by
  unfold pullRequestRepository.GetByID at h ⊢
  dsimp only
  rw [find?_map_key (fun r : PullRequest => r.ID) f hf]
  split at h
  · cases h
  · rename_i hr
    rw [hr]
    exact h

theorem GetByID_congr {db₁ db₂ : DB} (h : db₁.pull_requests = db₂.pull_requests)
    (prID : String) :
    pullRequestRepository.GetByID db₁ prID = pullRequestRepository.GetByID db₂ prID := by
  unfold pullRequestRepository.GetByID
  rw [h]

theorem GetByID_append {db : DB} {prID : String} {pr : PullRequest} (rows : List PullRequest)
    (h : pullRequestRepository.GetByID db prID = .ok pr) :
    pullRequestRepository.GetByID { db with pull_requests := db.pull_requests ++ rows } prID =
      .ok pr := by
  unfold pullRequestRepository.GetByID at h ⊢
  dsimp only
  split at h
  · rename_i r hr
    cases h
    rw [List.find?_append, hr]
    rfl
  · cases h

theorem contains_iff (slice : List String) (item : String) :
    contains slice item = true ↔ item ∈ slice := by
  induction slice with
  | nil => simp [contains]
  | cons s rest ih =>
    unfold contains
    by_cases h : s = item
    · simp [h]
    · have h' : ¬ item = s := fun e => h e.symm
      simp [h, h', ih]

theorem pr_unique {db : DB} {r pr : PullRequest} (hn : (db.pull_requests.map (·.ID)).Nodup)
    (hr : r ∈ db.pull_requests) (hpr : pullRequestRepository.GetByID db r.ID = .ok pr) :
    r = pr := by
  have := pr_GetByID_of_mem hn hr
  rw [this] at hpr
  cases hpr
  rfl

/-! ## No self-review -/

theorem SelectReviewers_not_author (db : DB) (rnd : Nat → Nat) (author : User) :
    author.ID ∉ reviewerSelector.SelectReviewers db rnd author := by
  intro hmem
  rw [SelectReviewers_eq] at hmem
  obtain ⟨u, hu, hid⟩ := mem_take_shuffle hmem
  have := ((mem_GetActiveTeamMembersExcluding db author.TeamName [author.ID] u).mp hu).2.2.2
  exact this (by simp [hid])

theorem prCreate_noSelfReview (db : DB) (env : Env) (req : PRCreateRequest)
    (h : NoSelfReview db) : NoSelfReview (prService.Create db env req).2 := by
  rcases Create_cases db env req with ⟨e, he⟩ | ⟨pr, db', hok⟩
  · rw [he]; exact h
  · rw [hok]
    obtain ⟨-, author, hauthor, -, -, -, -, hdb⟩ := Create_ok hok
    obtain ⟨-, -, hid⟩ := user_GetByID_ok hauthor
    rw [hdb]
    intro r hr
    rcases List.mem_append.mp hr with hold | hnew
    · exact h r hold
    · simp only [List.mem_singleton] at hnew
      subst hnew
      dsimp only
      rw [← hid]
      exact SelectReviewers_not_author db env.rnd author

theorem prMerge_noSelfReview (db : DB) (env : Env) (req : PRMergeRequest)
    (h : NoSelfReview db) : NoSelfReview (prService.Merge db env req).2 := by
  rcases Merge_cases db env req with hsame | ⟨pr, -, -, hdb⟩
  · rw [hsame]; exact h
  · rw [hdb]
    intro r hr
    obtain ⟨r0, hr0, rfl⟩ := List.mem_map.mp hr
    have := h r0 hr0
    split <;> exact this

theorem prReassign_noSelfReview (db : DB) (env : Env) (req : PRReassignRequest)
    (hwf : db.wf) (h : NoSelfReview db) :
    NoSelfReview (prService.ReassignReviewer db env req).2 := by
  rcases Reassign_cases db env req with ⟨e, he⟩ | ⟨⟨pr', newID⟩, db', hok⟩
  · rw [he]; exact h
  · rw [hok]
    obtain ⟨pr, old, hget, -, -, -, hsel, hpr', hupd⟩ := Reassign_ok hok
    obtain ⟨u, -, hu, -, -, hex⟩ := SelectReplacementReviewer_ok hsel
    have hnew : newID ≠ pr.AuthorID := fun e => hex (by simp [e])
    rw [repoUpdate_ok hupd]
    intro r hr
    obtain ⟨r0, hr0, rfl⟩ := List.mem_map.mp hr
    split
    · rename_i hid
      have hid' : r0.ID = req.ID := by
        have h1 : r0.ID = pr'.ID := by simpa using hid
        rw [h1, hpr']
        exact (pr_GetByID_ok hget).2
      have hr0pr : r0 = pr := pr_unique hwf.1 hr0 (hid' ▸ hget)
      subst hr0pr
      dsimp only
      rw [hpr']
      dsimp only
      intro hmem
      obtain ⟨x, hx, hxe⟩ := List.mem_map.mp hmem
      split at hxe
      · exact hnew hxe
      · exact h r0 hr0 (hxe ▸ hx)
    · exact h r0 hr0

theorem step_noSelfReview (db : DB) (c : Env × Call) (h : db.wf ∧ NoSelfReview db) :
    (step db c).wf ∧ NoSelfReview (step db c) := by
  refine ⟨step_wf db c h.1, ?_⟩
  obtain ⟨env, call⟩ := c
  cases call with
  | teamCreate team =>
    intro r hr
    exact h.2 r (teamCreate_pull_requests db env team ▸ hr)
  | userSetActive userID isActive =>
    intro r hr
    exact h.2 r (setActive_pull_requests db env userID isActive ▸ hr)
  | prCreate req => exact prCreate_noSelfReview db env req h.2
  | prMerge req => exact prMerge_noSelfReview db env req h.2
  | prReassign req => exact prReassign_noSelfReview db env req h.1 h.2

/-! ## The claims -/

/-- C1, no self-review: in the database reached from the empty one by any sequence of
calls (team creation, activation toggles, Create, Merge, ReassignReviewer, each with any
clock and any random source), no stored pull request lists its own author as a reviewer. -/
theorem C1_no_self_review (calls : List (Env × Call)) (pr : PullRequest)
    (h : pr ∈ (run DB.empty calls).pull_requests) : pr.AuthorID ∉ pr.AssignedReviewers :=
  (run_induction (fun db => db.wf ∧ NoSelfReview db) step_noSelfReview calls DB.empty
    ⟨empty_wf, by simp [NoSelfReview, DB.empty]⟩).2 pr h

theorem C1_no_self_review_witness :
    scenarioStored ∈ (run DB.empty scenarioCalls).pull_requests ∧
      scenarioStored.AuthorID ∉ scenarioStored.AssignedReviewers :=
  ⟨by decide, C1_no_self_review scenarioCalls scenarioStored (by decide)⟩

theorem activeTeammates_perm (db : DB) (author : User) :
    (userRepository.GetActiveTeamMembersExcluding db author.TeamName [author.ID]).Perm
      (activeTeammates db author) := by
  have h := GetActiveTeamMembersExcluding_perm db author.TeamName [author.ID]
  have hp : (fun u : User => u.TeamName == author.TeamName && u.IsActive == true &&
      [author.ID].all (fun x => u.ID != x)) =
      (fun u : User => u.TeamName == author.TeamName && u.IsActive && u.ID != author.ID) := by
    funext u
    simp
  rw [hp] at h
  exact h

theorem GetByID_created {db : DB} {row : PullRequest}
    (h : pullRequestRepository.Exists db row.ID = false) :
    pullRequestRepository.GetByID { db with pull_requests := db.pull_requests ++ [row] } row.ID =
      .ok row := by
  have hnone : db.pull_requests.find? (fun r => r.ID == row.ID) = none := by
    rw [List.find?_eq_none]
    intro r hr
    simpa using pr_Exists_false.mp h r hr
  unfold pullRequestRepository.GetByID
  dsimp only
  rw [List.find?_append, hnone]
  simp

/-- C2, reviewer count bound: a successful Create, on a database that respects the
primary keys, assigns exactly min(2, n) reviewers, where n is the number of active
members of the author's team other than the author; the reviewer ids are pairwise
distinct and each is the id of one of those members, for every random source; the
stored row carries the same reviewer list. -/
theorem C2_reviewer_count_bound (db db' : DB) (env : Env) (req : PRCreateRequest)
    (pr : PullRequest) (hwf : db.wf) (h : prService.Create db env req = (.ok pr, db')) :
    ∃ author stored, userRepository.GetByID db env.userQueryFault req.AuthorID = .ok author ∧
      pr.AssignedReviewers.length = min 2 (activeTeammates db author).length ∧
      pr.AssignedReviewers.length ≤ 2 ∧
      pr.AssignedReviewers.length ≤ (activeTeammates db author).length ∧
      pr.AssignedReviewers.Nodup ∧
      (∀ x ∈ pr.AssignedReviewers, ∃ u ∈ activeTeammates db author, u.ID = x) ∧
      pullRequestRepository.GetByID db' req.ID = .ok stored ∧
      stored.AssignedReviewers = pr.AssignedReviewers := by
  obtain ⟨hex, author, hauthor, -, -, hpr, -, hdb⟩ := Create_ok h
  have hperm := activeTeammates_perm db author
  have hrev : pr.AssignedReviewers = ((ShuffleUsers env.rnd
      (userRepository.GetActiveTeamMembersExcluding db author.TeamName [author.ID])).take 2).map
      (fun u => u.ID) := by
    rw [hpr]; exact SelectReviewers_eq db env.rnd author
  have hlen : pr.AssignedReviewers.length = min 2 (activeTeammates db author).length := by
    rw [hrev, length_take_shuffle, hperm.length_eq]
  have hle2 : pr.AssignedReviewers.length ≤ 2 := by omega
  have hlen' : pr.AssignedReviewers.length ≤ (activeTeammates db author).length := by omega
  subst hdb
  refine ⟨author, _, hauthor, hlen, hle2, hlen', ?_, ?_, GetByID_created hex, ?_⟩
  · rw [hrev]
    exact nodup_take_shuffle _ _ _ (GetActiveTeamMembersExcluding_nodup db _ _ hwf.2.1)
  · intro x hx
    rw [hrev] at hx
    obtain ⟨u, hu, hid⟩ := mem_take_shuffle hx
    exact ⟨u, hperm.mem_iff.mp hu, hid⟩
  · rw [hpr]

theorem C2_reviewer_count_bound_witness :
    ∃ author stored,
      userRepository.GetByID scenarioTeamDB scenarioEnv.userQueryFault scenarioRequest.AuthorID =
        .ok author ∧
      scenarioReturned.AssignedReviewers.length =
        min 2 (activeTeammates scenarioTeamDB author).length ∧
      scenarioReturned.AssignedReviewers.length ≤ 2 ∧
      scenarioReturned.AssignedReviewers.length ≤ (activeTeammates scenarioTeamDB author).length ∧
      scenarioReturned.AssignedReviewers.Nodup ∧
      (∀ x ∈ scenarioReturned.AssignedReviewers,
        ∃ u ∈ activeTeammates scenarioTeamDB author, u.ID = x) ∧
      pullRequestRepository.GetByID scenarioDB scenarioRequest.ID = .ok stored ∧
      stored.AssignedReviewers = scenarioReturned.AssignedReviewers :=
  C2_reviewer_count_bound scenarioTeamDB scenarioDB scenarioEnv scenarioRequest scenarioReturned
    (by decide) rfl

/-- C3, no duplicate reviewers, fails on the code: from the empty database, create team
"core" with active members A, B, C, create "pr-1" authored by A (reviewers C and B), then
reassign B.  The replacement pool excludes only the author and B, so it is C, who already
reviews the pull request: the stored reviewer list becomes C, C. -/
theorem C3_reassign_assigns_reviewer_twice :
    scenarioDB = run DB.empty scenarioCalls ∧
    pullRequestRepository.GetByID scenarioDB "pr-1" = .ok scenarioStored ∧
    scenarioStored.AssignedReviewers = ["C", "B"] ∧
    prService.ReassignReviewer scenarioDB scenarioEnv scenarioReassign =
      (.ok (scenarioReassigned, "C"), scenarioReassignedDB) ∧
    pullRequestRepository.GetByID scenarioReassignedDB "pr-1" = .ok scenarioReassigned ∧
    scenarioReassigned.AssignedReviewers = ["C", "C"] ∧
    ¬ scenarioReassigned.AssignedReviewers.Nodup :=
  ⟨rfl, rfl, rfl, rfl, rfl, rfl, by decide⟩

/-- C4, replacement exclusion: when ReassignReviewer succeeds, the new reviewer id it
returns differs from the author id of the pull request (as stored and as returned) and
from the old reviewer id. -/
theorem C4_replacement_exclusion (db db' : DB) (env : Env) (req : PRReassignRequest)
    (pr' : PullRequest) (newID : String)
    (h : prService.ReassignReviewer db env req = (.ok (pr', newID), db')) :
    ∃ pr, pullRequestRepository.GetByID db req.ID = .ok pr ∧ pr'.AuthorID = pr.AuthorID ∧
      newID ≠ pr.AuthorID ∧ newID ≠ req.OldReviewer := by
  obtain ⟨pr, old, hget, -, -, -, hsel, hpr', -⟩ := Reassign_ok h
  obtain ⟨u, -, -, -, -, hex⟩ := SelectReplacementReviewer_ok hsel
  refine ⟨pr, hget, by rw [hpr'], fun e => hex (by simp [e]), fun e => hex (by simp [e])⟩

theorem C4_replacement_exclusion_witness :
    ∃ pr, pullRequestRepository.GetByID scenarioDB scenarioReassign.ID = .ok pr ∧
      scenarioReassigned.AuthorID = pr.AuthorID ∧
      "C" ≠ pr.AuthorID ∧ "C" ≠ scenarioReassign.OldReviewer :=
  C4_replacement_exclusion scenarioDB scenarioReassignedDB scenarioEnv scenarioReassign
    scenarioReassigned "C" rfl

/-- C5, reassignment precondition: for the pull request stored under the request's id,
ReassignReviewer fails with ErrPRMerged when its status is MERGED, whatever the old
reviewer id, and with ErrNotAssigned when its status is OPEN and the old reviewer id is
not in its reviewer list; in both cases the database is the one the call started from. -/
theorem C5_reassign_preconditions (db : DB) (env : Env) (req : PRReassignRequest)
    (pr : PullRequest) (hget : pullRequestRepository.GetByID db req.ID = .ok pr) :
    (pr.Status = StatusMerged →
      prService.ReassignReviewer db env req = (.error .ErrPRMerged, db)) ∧
    (pr.Status = StatusOpen → req.OldReviewer ∉ pr.AssignedReviewers →
      prService.ReassignReviewer db env req = (.error .ErrNotAssigned, db)) := by
  constructor
  · intro hs
    unfold prService.ReassignReviewer
    rw [hget]
    simp [hs]
  · intro hs hnot
    have hc : contains pr.AssignedReviewers req.OldReviewer = false := by
      cases hcon : contains pr.AssignedReviewers req.OldReviewer with
      | false => rfl
      | true => exact absurd ((contains_iff _ _).mp hcon) hnot
    unfold prService.ReassignReviewer
    rw [hget]
    simp [hs, hc, StatusOpen, StatusMerged]

theorem C5_reassign_preconditions_witness :
    prService.ReassignReviewer scenarioMergedDB scenarioEnv scenarioReassign =
      (.error .ErrPRMerged, scenarioMergedDB) ∧
    prService.ReassignReviewer scenarioDB scenarioEnv { ID := "pr-1", OldReviewer := "A" } =
      (.error .ErrNotAssigned, scenarioDB) :=
  ⟨(C5_reassign_preconditions scenarioMergedDB scenarioEnv scenarioReassign scenarioMerged
      rfl).1 rfl,
   (C5_reassign_preconditions scenarioDB scenarioEnv { ID := "pr-1", OldReviewer := "A" }
      scenarioStored rfl).2 rfl (by decide)⟩

/-- C6, positional replacement: when ReassignReviewer succeeds on the stored pull request
`pr`, the returned record has, at every index, the new id where `pr` had the old reviewer
and the entry of `pr` otherwise (so the same length and order); the new id occurs in the
list and the old one does not; ID, Name, AuthorID and Status are those of `pr`; and the
row stored afterwards is the returned record with a fresh update timestamp. -/
theorem C6_positional_replacement (db db' : DB) (env : Env) (req : PRReassignRequest)
    (pr' : PullRequest) (newID : String)
    (h : prService.ReassignReviewer db env req = (.ok (pr', newID), db')) :
    ∃ pr, pullRequestRepository.GetByID db req.ID = .ok pr ∧
      pr'.AssignedReviewers.length = pr.AssignedReviewers.length ∧
      (∀ i : Nat, pr'.AssignedReviewers[i]? =
        (pr.AssignedReviewers[i]?).map (fun r => if r = req.OldReviewer then newID else r)) ∧
      newID ∈ pr'.AssignedReviewers ∧ req.OldReviewer ∉ pr'.AssignedReviewers ∧
      pr'.ID = pr.ID ∧ pr'.Name = pr.Name ∧ pr'.AuthorID = pr.AuthorID ∧
      pr'.Status = pr.Status ∧
      pullRequestRepository.GetByID db' req.ID = .ok { pr' with UpdatedAt := env.dbNow } := by
  obtain ⟨pr, old, hget, -, hcon, -, hsel, hpr', hupd⟩ := Reassign_ok h
  obtain ⟨u, -, -, -, -, hex⟩ := SelectReplacementReviewer_ok hsel
  have hne : newID ≠ req.OldReviewer := fun e => hex (by simp [e])
  have hold : req.OldReviewer ∈ pr.AssignedReviewers := (contains_iff _ _).mp hcon
  have hid : pr.ID = req.ID := (pr_GetByID_ok hget).2
  refine ⟨pr, hget, by rw [hpr']; simp, ?_, ?_, ?_, by rw [hpr'], by rw [hpr'], by rw [hpr'],
    by rw [hpr'], ?_⟩
  · intro i
    rw [hpr']
    simp only [List.getElem?_map, beq_iff_eq]
  · rw [hpr']
    exact List.mem_map.mpr ⟨req.OldReviewer, hold, by simp⟩
  · rw [hpr']
    intro hmem
    obtain ⟨x, -, hx⟩ := List.mem_map.mp hmem
    split at hx
    · exact hne hx
    · rename_i hxo
      exact hxo (by simpa using hx)
  · rw [repoUpdate_ok hupd]
    have hf : ∀ r : PullRequest, (if r.ID == pr'.ID then
        { r with Name := pr'.Name, Status := pr'.Status,
                 AssignedReviewers := pr'.AssignedReviewers, UpdatedAt := env.dbNow }
        else r).ID = r.ID := by
      intro r; split <;> rfl
    rw [GetByID_map _ hf hget]
    have hid' : pr.ID = pr'.ID := by rw [hpr']
    simp only [hid', beq_self_eq_true, if_true]
    rw [hpr']

theorem C6_positional_replacement_witness :
    ∃ pr, pullRequestRepository.GetByID scenarioDB scenarioReassign.ID = .ok pr ∧
      scenarioReassigned.AssignedReviewers.length = pr.AssignedReviewers.length ∧
      (∀ i : Nat, scenarioReassigned.AssignedReviewers[i]? =
        (pr.AssignedReviewers[i]?).map
          (fun r => if r = scenarioReassign.OldReviewer then "C" else r)) ∧
      "C" ∈ scenarioReassigned.AssignedReviewers ∧
      scenarioReassign.OldReviewer ∉ scenarioReassigned.AssignedReviewers ∧
      scenarioReassigned.ID = pr.ID ∧ scenarioReassigned.Name = pr.Name ∧
      scenarioReassigned.AuthorID = pr.AuthorID ∧ scenarioReassigned.Status = pr.Status ∧
      pullRequestRepository.GetByID scenarioReassignedDB scenarioReassign.ID =
        .ok { scenarioReassigned with UpdatedAt := scenarioEnv.dbNow } :=
  C6_positional_replacement scenarioDB scenarioReassignedDB scenarioEnv scenarioReassign
    scenarioReassigned "C" rfl

/-- C7, merge idempotence: for the pull request stored under the request's id, two Merge
calls in a row (each with its own clock) both succeed with a record of status MERGED; the
second returns the very record of the first, in particular the same MergedAt, and leaves
the database as the first call left it. -/
theorem C7_merge_idempotent (db : DB) (env1 env2 : Env) (req : PRMergeRequest)
    (pr : PullRequest) (hget : pullRequestRepository.GetByID db req.ID = .ok pr) :
    ∃ first second db1, prService.Merge db env1 req = (.ok first, db1) ∧
      prService.Merge db1 env2 req = (.ok second, db1) ∧
      first.Status = StatusMerged ∧ second.Status = StatusMerged ∧
      second.MergedAt = first.MergedAt ∧ second = first := by
  by_cases hs : pr.Status = StatusMerged
  · have h1 := @Merge_of_merged db env1 req pr hget hs
    have h2 := @Merge_of_merged db env2 req pr hget hs
    exact ⟨pr, pr, db, h1, h2, hs, hs, rfl, rfl⟩
  · have h1 := @Merge_of_open db env1 req pr hget hs
    have hget1 := GetByID_after_repoMerge env1.dbNow env1.now hget hs
    have h2 := @Merge_of_merged _ env2 req _ hget1 rfl
    exact ⟨_, _, _, h1, h2, rfl, rfl, rfl, rfl⟩

theorem C7_merge_idempotent_witness :
    ∃ first second db1,
      prService.Merge scenarioDB scenarioEnv scenarioMergeRequest = (.ok first, db1) ∧
      prService.Merge db1 scenarioLaterEnv scenarioMergeRequest = (.ok second, db1) ∧
      first.Status = StatusMerged ∧ second.Status = StatusMerged ∧
      second.MergedAt = first.MergedAt ∧ second = first :=
  C7_merge_idempotent scenarioDB scenarioEnv scenarioLaterEnv scenarioMergeRequest
    scenarioStored rfl

/-- C8, merge effect and frame: for a stored pull request of status OPEN, Merge succeeds
and returns the row read back from the database it leaves: status MERGED, MergedAt the
time of the call, and ID, Name, AuthorID, AssignedReviewers and CreatedAt as before; a
lookup of any other id gives what it gave before, and the number of rows, the users and
the teams are unchanged. -/
theorem C8_merge_effect (db : DB) (env : Env) (req : PRMergeRequest) (pr : PullRequest)
    (hget : pullRequestRepository.GetByID db req.ID = .ok pr) (hs : pr.Status = StatusOpen) :
    ∃ merged db', prService.Merge db env req = (.ok merged, db') ∧
      pullRequestRepository.GetByID db' req.ID = .ok merged ∧
      merged.Status = StatusMerged ∧ merged.MergedAt = some env.now ∧
      merged.ID = pr.ID ∧ merged.Name = pr.Name ∧ merged.AuthorID = pr.AuthorID ∧
      merged.AssignedReviewers = pr.AssignedReviewers ∧ merged.CreatedAt = pr.CreatedAt ∧
      (∀ other : String, other ≠ req.ID →
        pullRequestRepository.GetByID db' other = pullRequestRepository.GetByID db other) ∧
      db'.pull_requests.length = db.pull_requests.length ∧
      db'.users = db.users ∧ db'.teams = db.teams := by
  have hs' : pr.Status ≠ StatusMerged := by
    rw [hs]; decide
  refine ⟨_, _, Merge_of_open hget hs', GetByID_after_repoMerge env.dbNow env.now hget hs',
    rfl, rfl, rfl, rfl, rfl, rfl, rfl, ?_, by simp, rfl, rfl⟩
  intro other hother
  have hf : ∀ r : PullRequest, (if r.ID == req.ID && r.Status != "MERGED" then
      { r with Status := "MERGED", MergedAt := some env.now, UpdatedAt := env.dbNow }
      else r).ID = r.ID := by
    intro r; split <;> rfl
  cases ho : pullRequestRepository.GetByID db other with
  | error e => exact GetByID_map_error _ hf ho
  | ok r =>
    rw [GetByID_map _ hf ho]
    have hne : r.ID ≠ req.ID := by
      rw [(pr_GetByID_ok ho).2]; exact hother
    simp [hne]

theorem C8_merge_effect_witness :
    ∃ merged db', prService.Merge scenarioDB scenarioEnv scenarioMergeRequest = (.ok merged, db') ∧
      pullRequestRepository.GetByID db' scenarioMergeRequest.ID = .ok merged ∧
      merged.Status = StatusMerged ∧ merged.MergedAt = some scenarioEnv.now ∧
      merged.ID = scenarioStored.ID ∧ merged.Name = scenarioStored.Name ∧
      merged.AuthorID = scenarioStored.AuthorID ∧
      merged.AssignedReviewers = scenarioStored.AssignedReviewers ∧
      merged.CreatedAt = scenarioStored.CreatedAt ∧
      (∀ other : String, other ≠ scenarioMergeRequest.ID →
        pullRequestRepository.GetByID db' other =
          pullRequestRepository.GetByID scenarioDB other) ∧
      db'.pull_requests.length = scenarioDB.pull_requests.length ∧
      db'.users = scenarioDB.users ∧ db'.teams = scenarioDB.teams :=
  C8_merge_effect scenarioDB scenarioEnv scenarioMergeRequest scenarioStored rfl rfl

theorem step_keeps_merged (db : DB) (c : Env × Call) (prID : String) (pr : PullRequest)
    (hget : pullRequestRepository.GetByID db prID = .ok pr) (hs : pr.Status = StatusMerged) :
    pullRequestRepository.GetByID (step db c) prID = .ok pr := by
  obtain ⟨env, call⟩ := c
  cases call with
  | teamCreate team =>
    show pullRequestRepository.GetByID (teamService.Create db env team).2 prID = .ok pr
    rw [GetByID_congr (teamCreate_pull_requests db env team)]
    exact hget
  | userSetActive userID isActive =>
    show pullRequestRepository.GetByID (userService.SetActive db env userID isActive).2 prID =
      .ok pr
    rw [GetByID_congr (setActive_pull_requests db env userID isActive)]
    exact hget
  | prCreate req =>
    show pullRequestRepository.GetByID (prService.Create db env req).2 prID = .ok pr
    rcases Create_cases db env req with ⟨e, he⟩ | ⟨created, db', hok⟩
    · rw [he]; exact hget
    · rw [hok]
      obtain ⟨-, author, -, -, -, -, -, hdb⟩ := Create_ok hok
      rw [hdb]
      exact GetByID_append _ hget
  | prMerge req =>
    show pullRequestRepository.GetByID (prService.Merge db env req).2 prID = .ok pr
    rcases Merge_cases db env req with hsame | ⟨pr0, -, -, hdb⟩
    · rw [hsame]; exact hget
    · rw [hdb]
      have hf : ∀ r : PullRequest, (if r.ID == req.ID && r.Status != "MERGED" then
          { r with Status := "MERGED", MergedAt := some env.now, UpdatedAt := env.dbNow }
          else r).ID = r.ID := by
        intro r; split <;> rfl
      rw [GetByID_map _ hf hget]
      have hs' : pr.Status = "MERGED" := hs
      simp [hs']
  | prReassign req =>
    show pullRequestRepository.GetByID (prService.ReassignReviewer db env req).2 prID = .ok pr
    rcases Reassign_cases db env req with ⟨e, he⟩ | ⟨⟨pr', newID⟩, db', hok⟩
    · rw [he]; exact hget
    · rw [hok]
      obtain ⟨pr0, old, hget0, hst, -, -, -, hpr', hupd⟩ := Reassign_ok hok
      rw [repoUpdate_ok hupd]
      have hf : ∀ r : PullRequest, (if r.ID == pr'.ID then
          { r with Name := pr'.Name, Status := pr'.Status,
                   AssignedReviewers := pr'.AssignedReviewers, UpdatedAt := env.dbNow }
          else r).ID = r.ID := by
        intro r; split <;> rfl
      rw [GetByID_map _ hf hget]
      have hne : pr.ID ≠ pr'.ID := by
        intro heq
        have h1 : pr'.ID = req.ID := by rw [hpr']; exact (pr_GetByID_ok hget0).2
        have h2 : prID = req.ID := by rw [← (pr_GetByID_ok hget).2, heq, h1]
        rw [h2, hget0] at hget
        cases hget
        exact hst hs
      simp [hne]

/-- C9, MERGED is terminal: once the pull request stored under an id has status MERGED,
after any sequence of calls (team creation, activation toggles, Create, Merge,
ReassignReviewer) the record stored under that id is the same record: status MERGED,
the same AssignedReviewers, Name and MergedAt, and every other field. -/
theorem C9_merged_is_terminal (calls : List (Env × Call)) (db : DB) (prID : String)
    (pr : PullRequest) (hget : pullRequestRepository.GetByID db prID = .ok pr)
    (hs : pr.Status = StatusMerged) :
    ∃ pr', pullRequestRepository.GetByID (run db calls) prID = .ok pr' ∧
      pr'.Status = StatusMerged ∧ pr'.AssignedReviewers = pr.AssignedReviewers ∧
      pr'.Name = pr.Name ∧ pr'.MergedAt = pr.MergedAt ∧ pr' = pr := by
  refine ⟨pr, ?_, hs, rfl, rfl, rfl, rfl⟩
  exact run_induction (fun d => pullRequestRepository.GetByID d prID = .ok pr)
    (fun d c hd => step_keeps_merged d c prID pr hd hs) calls db hget

theorem C9_merged_is_terminal_witness :
    ∃ pr', pullRequestRepository.GetByID (run scenarioMergedDB scenarioLaterCalls) "pr-1" =
        .ok pr' ∧
      pr'.Status = StatusMerged ∧ pr'.AssignedReviewers = scenarioMerged.AssignedReviewers ∧
      pr'.Name = scenarioMerged.Name ∧ pr'.MergedAt = scenarioMerged.MergedAt ∧
      pr' = scenarioMerged :=
  C9_merged_is_terminal scenarioLaterCalls scenarioMergedDB "pr-1" scenarioMerged rfl rfl

/-- C10, duplicate id: when a stored pull request has the request's ID, Create fails with
ErrPRExists and leaves the database as it was, whoever the request names as author and
whatever the users and teams tables hold. -/
theorem C10_create_duplicate_id (db : DB) (env : Env) (req : PRCreateRequest)
    (stored : PullRequest) (hmem : stored ∈ db.pull_requests) (hid : stored.ID = req.ID) :
    prService.Create db env req = (.error .ErrPRExists, db) := by
  have hex : pullRequestRepository.Exists db req.ID = true := hid ▸ pr_Exists_of_mem hmem
  unfold prService.Create
  rw [if_pos hex]

theorem C10_create_duplicate_id_witness :
    prService.Create scenarioDB scenarioLaterEnv { ID := "pr-1", Name := "again", AuthorID := "nobody" } =
      (.error .ErrPRExists, scenarioDB) :=
  C10_create_duplicate_id scenarioDB scenarioLaterEnv
    { ID := "pr-1", Name := "again", AuthorID := "nobody" } scenarioStored (by decide) rfl

/-! ## User ids are never empty in a reachable database -/

theorem validateMembers_ids (name : String) :
    ∀ ms : List User, (Team.validateMembers name ms).1 = none →
      ∀ m ∈ (Team.validateMembers name ms).2, m.ID ≠ "" := by
  intro ms
  induction ms with
  | nil => intro _ m hm; simp [Team.validateMembers] at hm
  | cons x rest ih =>
    intro h m hm
    unfold Team.validateMembers at h hm
    cases hx : x.Validate with
    | some e => rw [hx] at h; simp at h
    | none =>
      rw [hx] at h hm
      dsimp only at h hm
      rcases List.mem_cons.mp hm with rfl | hrest
      · dsimp only
        intro hid
        unfold User.Validate at hx
        rw [if_pos hid] at hx
        cases hx
      · exact ih h m hrest

theorem Team_Validate_ids {t t' : Team} (h : t.Validate = (none, t')) :
    t'.Name = t.Name ∧ ∀ m ∈ t'.Members, m.ID ≠ "" := by
  unfold Team.Validate at h
  split at h
  · cases h
  · dsimp only at h
    simp only [Prod.mk.injEq] at h
    obtain ⟨h1, h2⟩ := h
    subst h2
    exact ⟨rfl, validateMembers_ids t.Name t.Members h1⟩

theorem upsertUser_ids (dbNow : Time) (teamName : String) (users : List User) (m : User)
    (hu : ∀ u ∈ users, u.ID ≠ "") (hm : m.ID ≠ "") :
    ∀ u ∈ upsertUser dbNow teamName users m, u.ID ≠ "" := by
  unfold upsertUser
  split
  · intro u hmem
    obtain ⟨u0, hu0, rfl⟩ := List.mem_map.mp hmem
    split <;> exact hu u0 hu0
  · intro u hmem
    rcases List.mem_append.mp hmem with h | h
    · exact hu u h
    · simp only [List.mem_singleton] at h
      subst h
      exact hm

theorem foldl_upsertUser_ids (dbNow : Time) (teamName : String) :
    ∀ (ms users : List User), (∀ u ∈ users, u.ID ≠ "") → (∀ m ∈ ms, m.ID ≠ "") →
      ∀ u ∈ ms.foldl (upsertUser dbNow teamName) users, u.ID ≠ "" := by
  intro ms
  induction ms with
  | nil => intro users hu _; exact hu
  | cons m rest ih =>
    intro users hu hm
    exact ih _ (upsertUser_ids dbNow teamName users m hu (hm m (List.mem_cons_self _ _)))
      (fun x hx => hm x (List.mem_cons_of_mem _ hx))

/-- The outcomes of `teamService.Create`: nothing written, or a validated team stored. -/
theorem teamCreate_validated (db : DB) (env : Env) (team : Team) :
    (teamService.Create db env team).2 = db ∨
      ∃ team', team.Validate = (none, team') ∧
        teamRepository.Create db env.dbNow team' = .ok (teamService.Create db env team).2 := by
  unfold teamService.Create
  split
  · exact Or.inl rfl
  · rename_i team' hval
    split
    · exact Or.inl rfl
    · rename_i db' hcreate
      exact Or.inr ⟨team', hval, hcreate⟩

theorem prCreate_users (db : DB) (env : Env) (req : PRCreateRequest) :
    (prService.Create db env req).2.users = db.users ∧
      (prService.Create db env req).2.teams = db.teams := by
  rcases Create_cases db env req with ⟨e, he⟩ | ⟨pr, db', hok⟩
  · rw [he]; exact ⟨rfl, rfl⟩
  · rw [hok]
    obtain ⟨-, author, -, -, -, -, -, hdb⟩ := Create_ok hok
    rw [hdb]; exact ⟨rfl, rfl⟩

theorem prMerge_users (db : DB) (env : Env) (req : PRMergeRequest) :
    (prService.Merge db env req).2.users = db.users ∧
      (prService.Merge db env req).2.teams = db.teams := by
  rcases Merge_cases db env req with h | ⟨pr, -, -, h⟩ <;> rw [h] <;> exact ⟨rfl, rfl⟩

theorem prReassign_users (db : DB) (env : Env) (req : PRReassignRequest) :
    (prService.ReassignReviewer db env req).2.users = db.users ∧
      (prService.ReassignReviewer db env req).2.teams = db.teams := by
  rcases Reassign_cases db env req with ⟨e, he⟩ | ⟨⟨pr', newID⟩, db', hok⟩
  · rw [he]; exact ⟨rfl, rfl⟩
  · rw [hok]
    obtain ⟨pr, old, -, -, -, -, -, -, hupd⟩ := Reassign_ok hok
    rw [repoUpdate_ok hupd]; exact ⟨rfl, rfl⟩

theorem step_userIDs (db : DB) (c : Env × Call) (h : ∀ u ∈ db.users, u.ID ≠ "") :
    ∀ u ∈ (step db c).users, u.ID ≠ "" := by
  obtain ⟨env, call⟩ := c
  cases call with
  | teamCreate team =>
    show ∀ u ∈ (teamService.Create db env team).2.users, u.ID ≠ ""
    rcases teamCreate_validated db env team with hsame | ⟨team', hval, hcreate⟩
    · rw [hsame]; exact h
    · rw [(teamRepoCreate_ok hcreate).2]
      exact foldl_upsertUser_ids _ _ _ _ h (Team_Validate_ids hval).2
  | userSetActive userID isActive =>
    show ∀ u ∈ (userService.SetActive db env userID isActive).2.users, u.ID ≠ ""
    rcases setActive_cases db env userID isActive with hsame | hmap
    · rw [hsame]; exact h
    · rw [hmap]
      intro u hmem
      obtain ⟨u0, hu0, rfl⟩ := List.mem_map.mp hmem
      split <;> exact h u0 hu0
  | prCreate req =>
    show ∀ u ∈ (prService.Create db env req).2.users, u.ID ≠ ""
    rw [(prCreate_users db env req).1]; exact h
  | prMerge req =>
    show ∀ u ∈ (prService.Merge db env req).2.users, u.ID ≠ ""
    rw [(prMerge_users db env req).1]; exact h
  | prReassign req =>
    show ∀ u ∈ (prService.ReassignReviewer db env req).2.users, u.ID ≠ ""
    rw [(prReassign_users db env req).1]; exact h

theorem run_userIDs (calls : List (Env × Call)) :
    ∀ u ∈ (run DB.empty calls).users, u.ID ≠ "" :=
  run_induction (fun db => ∀ u ∈ db.users, u.ID ≠ "") step_userIDs calls DB.empty
    (by simp [DB.empty])

/-! ## When Create succeeds -/

theorem SelectReviewers_length_le (db : DB) (rnd : Nat → Nat) (author : User) :
    (reviewerSelector.SelectReviewers db rnd author).length ≤ 2 := by
  rw [SelectReviewers_eq, length_take_shuffle]
  exact Nat.min_le_left _ _

theorem Create_succeeds {db : DB} {env : Env} {req : PRCreateRequest} {author : User}
    (hid : req.ID ≠ "") (hname : req.Name ≠ "") (hauth : req.AuthorID ≠ "")
    (hnew : pullRequestRepository.Exists db req.ID = false)
    (hauthor : userRepository.GetByID db env.userQueryFault req.AuthorID = .ok author)
    (hact : author.IsActive = true)
    (hteam : teamRepository.Exists db author.TeamName = true) :
    prService.Create db env req =
      (.ok { ID := req.ID, Name := req.Name, AuthorID := req.AuthorID, Status := StatusOpen,
             AssignedReviewers := reviewerSelector.SelectReviewers db env.rnd author,
             CreatedAt := env.now, MergedAt := none, UpdatedAt := 0 },
       { db with pull_requests := db.pull_requests ++
          [{ ID := req.ID, Name := req.Name, AuthorID := req.AuthorID, Status := StatusOpen,
             AssignedReviewers := reviewerSelector.SelectReviewers db env.rnd author,
             CreatedAt := env.dbNow, MergedAt := none, UpdatedAt := env.dbNow }] }) := by
  have hlen := SelectReviewers_length_le db env.rnd author
  have hval : PullRequest.Validate
      { ID := req.ID, Name := req.Name, AuthorID := req.AuthorID, Status := StatusOpen,
        AssignedReviewers := reviewerSelector.SelectReviewers db env.rnd author,
        CreatedAt := env.now, MergedAt := none, UpdatedAt := 0 } = none := by
    unfold PullRequest.Validate
    dsimp only
    rw [if_neg hid, if_neg hname, if_neg hauth, if_neg (by omega)]
  have hany : ¬ (db.pull_requests.any (fun r => r.ID == req.ID) = true) := by
    have := hnew
    unfold pullRequestRepository.Exists at this
    rw [this]; simp
  unfold prService.Create
  rw [hnew, hauthor]
  simp only [Bool.false_eq_true, if_false, hact, hteam, Bool.not_true]
  rw [hval]
  unfold pullRequestRepository.Create
  simp only [if_neg hany]

theorem team_Exists_false {db : DB} {teamName : String} :
    teamRepository.Exists db teamName = false ↔ ∀ t ∈ db.teams, t.Name ≠ teamName := by
  simp [teamRepository.Exists]

/-- C11, author checks of Create: for a request whose ID is not stored, Create fails with
ErrNotFound when no user has the AuthorID; when the user store returns the author, it
fails with ErrUserNotActive if the author is inactive and with ErrNotFound if the author
is active and no team row has the author's team name; each time the database is the one
the call started from. -/
theorem C11_create_author_checks (db : DB) (env : Env) (req : PRCreateRequest)
    (hnew : ∀ r ∈ db.pull_requests, r.ID ≠ req.ID) :
    ((∀ u ∈ db.users, u.ID ≠ req.AuthorID) →
      prService.Create db env req = (.error .ErrNotFound, db)) ∧
    (∀ author, userRepository.GetByID db env.userQueryFault req.AuthorID = .ok author →
      (author.IsActive = false →
        prService.Create db env req = (.error .ErrUserNotActive, db)) ∧
      (author.IsActive = true → (∀ t ∈ db.teams, t.Name ≠ author.TeamName) →
        prService.Create db env req = (.error .ErrNotFound, db))) := by
  have hex : pullRequestRepository.Exists db req.ID = false := pr_Exists_false.mpr hnew
  refine ⟨?_, ?_⟩
  · intro hnone
    cases hget : userRepository.GetByID db env.userQueryFault req.AuthorID with
    | error e =>
      unfold prService.Create
      rw [hex, hget]
      simp
    | ok author =>
      obtain ⟨-, hmem, hid⟩ := user_GetByID_ok hget
      exact absurd hid (hnone author hmem)
  · intro author hget
    refine ⟨?_, ?_⟩
    · intro hact
      unfold prService.Create
      rw [hex, hget]
      simp [hact]
    · intro hact hteam
      have hte : teamRepository.Exists db author.TeamName = false := team_Exists_false.mpr hteam
      unfold prService.Create
      rw [hex, hget]
      simp [hact, hte]

theorem C11_create_author_checks_witness :
    prService.Create orphanDB scenarioEnv { ID := "pr-1", Name := "first", AuthorID := "nobody" } =
      (.error .ErrNotFound, orphanDB) ∧
    prService.Create orphanDB scenarioEnv { ID := "pr-1", Name := "first", AuthorID := "idle" } =
      (.error .ErrUserNotActive, orphanDB) ∧
    prService.Create orphanDB scenarioEnv { ID := "pr-1", Name := "first", AuthorID := "ghost" } =
      (.error .ErrNotFound, orphanDB) :=
  ⟨(C11_create_author_checks orphanDB scenarioEnv
      { ID := "pr-1", Name := "first", AuthorID := "nobody" } (by decide)).1 (by decide),
   ((C11_create_author_checks orphanDB scenarioEnv
      { ID := "pr-1", Name := "first", AuthorID := "idle" } (by decide)).2
      { ID := "idle", Username := "idle", TeamName := "gone", IsActive := false,
        CreatedAt := 0, UpdatedAt := 0 } rfl).1 rfl,
   ((C11_create_author_checks orphanDB scenarioEnv
      { ID := "pr-1", Name := "first", AuthorID := "ghost" } (by decide)).2
      { ID := "ghost", Username := "ghost", TeamName := "gone", IsActive := true,
        CreatedAt := 0, UpdatedAt := 0 } rfl).2 rfl (by decide)⟩

/-- C12 as stated fails: in `soloDB` the author S is active, team "solo" exists and has no
other active member, yet Create fails for a request with an empty Name or an empty ID,
and, once "pr-9" is stored, for a request that reuses that id. -/
theorem C12_empty_pool_create_can_fail :
    userRepository.GetByID soloDB none "S" = .ok soloAuthor ∧
    userRepository.GetByID soloPRDB none "S" = .ok soloAuthor ∧
    soloAuthor.IsActive = true ∧
    teamRepository.Exists soloDB soloAuthor.TeamName = true ∧
    teamRepository.Exists soloPRDB soloAuthor.TeamName = true ∧
    activeTeammates soloDB soloAuthor = [] ∧
    activeTeammates soloPRDB soloAuthor = [] ∧
    prService.Create soloDB scenarioEnv { ID := "pr-9", Name := "", AuthorID := "S" } =
      (.error .ErrInvalidPRName, soloDB) ∧
    prService.Create soloDB scenarioEnv { ID := "", Name := "alone", AuthorID := "S" } =
      (.error .ErrInvalidPRID, soloDB) ∧
    prService.Create soloPRDB scenarioEnv soloRequest = (.error .ErrPRExists, soloPRDB) :=
  ⟨rfl, rfl, rfl, rfl, rfl, rfl, rfl, rfl, rfl, rfl⟩

theorem SelectReviewers_of_no_teammates {db : DB} {author : User} (rnd : Nat → Nat)
    (h : activeTeammates db author = []) :
    reviewerSelector.SelectReviewers db rnd author = [] := by
  have hp := activeTeammates_perm db author
  rw [h] at hp
  unfold reviewerSelector.SelectReviewers
  dsimp only
  rw [List.Perm.eq_nil hp]
  rfl

/-- C12, amended: in a database reached from the empty one, when the author is active,
the author's team exists and has no other active member, SelectReviewers returns the
empty list, and Create, for a request with non-empty ID and Name whose ID is not yet
stored, succeeds with a pull request whose AssignedReviewers is empty, stored as such. -/
theorem C12_empty_pool_is_not_an_error (calls : List (Env × Call)) (env : Env)
    (req : PRCreateRequest) (author : User)
    (hid : req.ID ≠ "") (hname : req.Name ≠ "")
    (hnew : ∀ r ∈ (run DB.empty calls).pull_requests, r.ID ≠ req.ID)
    (hauthor : userRepository.GetByID (run DB.empty calls) env.userQueryFault req.AuthorID =
      .ok author)
    (hact : author.IsActive = true)
    (hteam : teamRepository.Exists (run DB.empty calls) author.TeamName = true)
    (hpool : activeTeammates (run DB.empty calls) author = []) :
    reviewerSelector.SelectReviewers (run DB.empty calls) env.rnd author = [] ∧
    ∃ pr db' stored, prService.Create (run DB.empty calls) env req = (.ok pr, db') ∧
      pr.AssignedReviewers = [] ∧
      pullRequestRepository.GetByID db' req.ID = .ok stored ∧
      stored.AssignedReviewers = [] := by
  have hsel := SelectReviewers_of_no_teammates env.rnd hpool
  obtain ⟨-, hmem, hauthID⟩ := user_GetByID_ok hauthor
  have hauth : req.AuthorID ≠ "" := hauthID ▸ run_userIDs calls author hmem
  have hex := pr_Exists_false.mpr hnew
  refine ⟨hsel, _, _, _, Create_succeeds hid hname hauth hex hauthor hact hteam, hsel,
    GetByID_created hex, hsel⟩

theorem C12_empty_pool_is_not_an_error_witness :
    reviewerSelector.SelectReviewers (run DB.empty soloCalls) scenarioEnv.rnd soloAuthor = [] ∧
    ∃ pr db' stored,
      prService.Create (run DB.empty soloCalls) scenarioEnv soloRequest = (.ok pr, db') ∧
      pr.AssignedReviewers = [] ∧
      pullRequestRepository.GetByID db' soloRequest.ID = .ok stored ∧
      stored.AssignedReviewers = [] :=
  C12_empty_pool_is_not_an_error soloCalls scenarioEnv soloRequest soloAuthor (by decide)
    (by decide) (by decide) rfl rfl rfl rfl

/-- C13, Create success: in a database reached from the empty one, for a request with
non-empty ID and Name whose ID is not yet stored and whose author exists, is active and
belongs to an existing team, Create succeeds; the returned record has status OPEN and
the request's ID, Name and AuthorID; afterwards the row stored under the id has status
OPEN, the same AuthorID, Name and AssignedReviewers, and no MergedAt. -/
theorem C13_create_success (calls : List (Env × Call)) (env : Env) (req : PRCreateRequest)
    (author : User) (hid : req.ID ≠ "") (hname : req.Name ≠ "")
    (hnew : ∀ r ∈ (run DB.empty calls).pull_requests, r.ID ≠ req.ID)
    (hauthor : userRepository.GetByID (run DB.empty calls) env.userQueryFault req.AuthorID =
      .ok author)
    (hact : author.IsActive = true)
    (hteam : teamRepository.Exists (run DB.empty calls) author.TeamName = true) :
    ∃ pr db' stored, prService.Create (run DB.empty calls) env req = (.ok pr, db') ∧
      pr.Status = StatusOpen ∧ pr.ID = req.ID ∧ pr.Name = req.Name ∧
      pr.AuthorID = req.AuthorID ∧
      pullRequestRepository.GetByID db' req.ID = .ok stored ∧
      stored.ID = req.ID ∧ stored.Status = StatusOpen ∧ stored.AuthorID = pr.AuthorID ∧
      stored.Name = pr.Name ∧ stored.AssignedReviewers = pr.AssignedReviewers ∧
      stored.MergedAt = none := by
  obtain ⟨-, hmem, hauthID⟩ := user_GetByID_ok hauthor
  have hauth : req.AuthorID ≠ "" := hauthID ▸ run_userIDs calls author hmem
  have hex := pr_Exists_false.mpr hnew
  exact ⟨_, _, _, Create_succeeds hid hname hauth hex hauthor hact hteam, rfl, rfl, rfl, rfl,
    GetByID_created hex, rfl, rfl, rfl, rfl, rfl, rfl⟩

theorem C13_create_success_witness :
    ∃ pr db' stored,
      prService.Create (run DB.empty soloCalls) scenarioLaterEnv soloRequest = (.ok pr, db') ∧
      pr.Status = StatusOpen ∧ pr.ID = soloRequest.ID ∧ pr.Name = soloRequest.Name ∧
      pr.AuthorID = soloRequest.AuthorID ∧
      pullRequestRepository.GetByID db' soloRequest.ID = .ok stored ∧
      stored.ID = soloRequest.ID ∧ stored.Status = StatusOpen ∧
      stored.AuthorID = pr.AuthorID ∧ stored.Name = pr.Name ∧
      stored.AssignedReviewers = pr.AssignedReviewers ∧ stored.MergedAt = none :=
  C13_create_success soloCalls scenarioLaterEnv soloRequest soloAuthor (by decide) (by decide)
    (by decide) rfl rfl rfl

/-! ## Replacement candidates -/

theorem pool_eq_nil_iff (db : DB) (teamName : String) (ex : List String) :
    userRepository.GetActiveTeamMembersExcluding db teamName ex = [] ↔
      ∀ u ∈ db.users, u.TeamName = teamName → u.IsActive = true → u.ID ∈ ex := by
  rw [List.eq_nil_iff_forall_not_mem]
  constructor
  · intro h u hu ht ha
    by_contra hex
    exact h u ((mem_GetActiveTeamMembersExcluding db teamName ex u).mpr ⟨hu, ht, ha, hex⟩)
  · intro h u hmem
    obtain ⟨hu, ht, ha, hex⟩ := (mem_GetActiveTeamMembersExcluding db teamName ex u).mp hmem
    exact hex (h u hu ht ha)

theorem SelectReplacementReviewer_cases (db : DB) (rnd : Nat → Nat) (teamName : String)
    (ex : List String) :
    (userRepository.GetActiveTeamMembersExcluding db teamName ex = [] ∧
      reviewerSelector.SelectReplacementReviewer db rnd teamName ex = .error .ErrNoCandidate) ∨
    (userRepository.GetActiveTeamMembersExcluding db teamName ex ≠ [] ∧
      ∃ x, reviewerSelector.SelectReplacementReviewer db rnd teamName ex = .ok x) := by
  unfold reviewerSelector.SelectReplacementReviewer
  dsimp only
  split
  · rename_i h
    exact Or.inl ⟨List.length_eq_zero.mp h, rfl⟩
  · rename_i h
    have hne : userRepository.GetActiveTeamMembersExcluding db teamName ex ≠ [] :=
      fun e => h (by rw [e]; rfl)
    refine Or.inr ⟨hne, ?_⟩
    split
    · rename_i hsel
      have hlen := length_take_shuffle rnd
        (userRepository.GetActiveTeamMembersExcluding db teamName ex) 1
      rw [← selectRandomReviewers_eq, hsel] at hlen
      have hpos : 0 < (userRepository.GetActiveTeamMembersExcluding db teamName ex).length :=
        Nat.pos_of_ne_zero h
      simp only [List.length_nil] at hlen
      omega
    · rename_i x xs _
      exact ⟨x, rfl⟩

/-- C14, no candidate: SelectReplacementReviewer fails with ErrNoCandidate exactly when
every active member of the team is in the exclusion list; when some active member is
outside it, the call returns the id of such a member; and when the selection fails
inside ReassignReviewer, that call fails with ErrNoCandidate and leaves the database as
it was. -/
theorem C14_no_candidate (db : DB) (env : Env) (teamName : String) (ex : List String) :
    (reviewerSelector.SelectReplacementReviewer db env.rnd teamName ex = .error .ErrNoCandidate ↔
      ∀ u ∈ db.users, u.TeamName = teamName → u.IsActive = true → u.ID ∈ ex) ∧
    ((∃ u ∈ db.users, u.TeamName = teamName ∧ u.IsActive = true ∧ u.ID ∉ ex) →
      ∃ u ∈ db.users, u.TeamName = teamName ∧ u.IsActive = true ∧ u.ID ∉ ex ∧
        reviewerSelector.SelectReplacementReviewer db env.rnd teamName ex = .ok u.ID) ∧
    (∀ (req : PRReassignRequest) (pr : PullRequest) (oldReviewer : User),
      pullRequestRepository.GetByID db req.ID = .ok pr → pr.Status ≠ StatusMerged →
      req.OldReviewer ∈ pr.AssignedReviewers →
      userRepository.GetByID db env.userQueryFault req.OldReviewer = .ok oldReviewer →
      reviewerSelector.SelectReplacementReviewer db env.rnd oldReviewer.TeamName
        [pr.AuthorID, req.OldReviewer] = .error .ErrNoCandidate →
      prService.ReassignReviewer db env req = (.error .ErrNoCandidate, db)) := by
  refine ⟨?_, ?_, ?_⟩
  · rw [← pool_eq_nil_iff]
    rcases SelectReplacementReviewer_cases db env.rnd teamName ex with ⟨hnil, herr⟩ | ⟨hne, x, hok⟩
    · exact ⟨fun _ => hnil, fun _ => herr⟩
    · rw [hok]
      exact ⟨fun h => (by cases h), fun h => absurd h hne⟩
  · rintro ⟨u, hu, ht, ha, hex⟩
    rcases SelectReplacementReviewer_cases db env.rnd teamName ex with ⟨hnil, -⟩ | ⟨-, x, hok⟩
    · exact absurd ((pool_eq_nil_iff db teamName ex).mp hnil u hu ht ha) hex
    · obtain ⟨v, hv, hid, hvt, hva, hvex⟩ := SelectReplacementReviewer_ok hok
      exact ⟨v, hv, hvt, hva, hid ▸ hvex, hid ▸ hok⟩
  · intro req pr oldReviewer hget hst hmem hold hsel
    have hc : contains pr.AssignedReviewers req.OldReviewer = true := (contains_iff _ _).mpr hmem
    unfold prService.ReassignReviewer
    rw [hget]
    simp only [beq_iff_eq, if_neg hst, hc, Bool.not_true, Bool.false_eq_true, if_false]
    rw [hold]
    simp only
    rw [hsel]

theorem C14_no_candidate_witness :
    reviewerSelector.SelectReplacementReviewer soloDB scenarioEnv.rnd "solo" ["S"] =
      .error .ErrNoCandidate ∧
    (∃ u ∈ scenarioDB.users, u.TeamName = "core" ∧ u.IsActive = true ∧ u.ID ∉ ["A", "B"] ∧
      reviewerSelector.SelectReplacementReviewer scenarioDB scenarioEnv.rnd "core" ["A", "B"] =
        .ok u.ID) ∧
    prService.ReassignReviewer noCandidateDB scenarioEnv scenarioReassign =
      (.error .ErrNoCandidate, noCandidateDB) :=
  ⟨(C14_no_candidate soloDB scenarioEnv "solo" ["S"]).1.mpr (by decide),
   (C14_no_candidate scenarioDB scenarioEnv "core" ["A", "B"]).2.1
     ⟨{ ID := "C", Username := "C", TeamName := "core", IsActive := true, CreatedAt := 20,
        UpdatedAt := 20 }, by decide, rfl, rfl, by decide⟩,
   (C14_no_candidate noCandidateDB scenarioEnv "core" ["A", "B"]).2.2 scenarioReassign
     scenarioStored
     { ID := "B", Username := "B", TeamName := "core", IsActive := true, CreatedAt := 20,
       UpdatedAt := 20 }
     rfl (by decide) (by decide) rfl rfl⟩

theorem pr_GetByID_missing {db : DB} {prID : String}
    (h : ∀ r ∈ db.pull_requests, r.ID ≠ prID) :
    pullRequestRepository.GetByID db prID = .error .ErrNotFound := by
  cases hget : pullRequestRepository.GetByID db prID with
  | error e => rw [(pr_GetByID_error hget).1]
  | ok pr =>
    obtain ⟨hmem, hid⟩ := pr_GetByID_ok hget
    exact absurd hid (h pr hmem)

/-- C15, missing pull request: when no stored pull request has the id, Merge fails with
ErrNotFound and so does ReassignReviewer, whatever the old reviewer id, and both leave
the database as it was. -/
theorem C15_missing_pull_request (db : DB) (env : Env) (prID oldReviewerID : String)
    (h : ∀ r ∈ db.pull_requests, r.ID ≠ prID) :
    prService.Merge db env { ID := prID } = (.error .ErrNotFound, db) ∧
    prService.ReassignReviewer db env { ID := prID, OldReviewer := oldReviewerID } =
      (.error .ErrNotFound, db) := by
  have hget := pr_GetByID_missing h
  constructor
  · exact Merge_of_missing hget
  · unfold prService.ReassignReviewer
    dsimp only
    rw [hget]

theorem C15_missing_pull_request_witness :
    prService.Merge scenarioDB scenarioEnv { ID := "pr-404" } =
      (.error .ErrNotFound, scenarioDB) ∧
    prService.ReassignReviewer scenarioDB scenarioEnv { ID := "pr-404", OldReviewer := "B" } =
      (.error .ErrNotFound, scenarioDB) :=
  C15_missing_pull_request scenarioDB scenarioEnv "pr-404" "B" (by decide)

/-- C16, PullRequest.Validate: it returns nil exactly when ID, Name and AuthorID are
non-empty and there are at most two reviewers; otherwise it returns the error of the
first violated rule in the order ErrInvalidPRID, ErrInvalidPRName, ErrInvalidAuthorID,
ErrTooManyReviewers.  The method only reads the record: its embedding is a function from
the record to the error. -/
theorem C16_validate (pr : PullRequest) :
    (pr.Validate = none ↔
      pr.ID ≠ "" ∧ pr.Name ≠ "" ∧ pr.AuthorID ≠ "" ∧ pr.AssignedReviewers.length ≤ 2) ∧
    (pr.ID = "" → pr.Validate = some .ErrInvalidPRID) ∧
    (pr.ID ≠ "" → pr.Name = "" → pr.Validate = some .ErrInvalidPRName) ∧
    (pr.ID ≠ "" → pr.Name ≠ "" → pr.AuthorID = "" → pr.Validate = some .ErrInvalidAuthorID) ∧
    (pr.ID ≠ "" → pr.Name ≠ "" → pr.AuthorID ≠ "" → 2 < pr.AssignedReviewers.length →
      pr.Validate = some .ErrTooManyReviewers) := by
  unfold PullRequest.Validate
  by_cases h1 : pr.ID = ""
  · simp [h1]
  · by_cases h2 : pr.Name = ""
    · simp [h1, h2]
    · by_cases h3 : pr.AuthorID = ""
      · simp [h1, h2, h3]
      · by_cases h4 : pr.AssignedReviewers.length > 2
        · simp [h1, h2, h3, h4]
        · have h4' : pr.AssignedReviewers.length ≤ 2 := by omega
          rw [if_neg h1, if_neg h2, if_neg h3, if_neg h4]
          exact ⟨⟨fun _ => ⟨h1, h2, h3, h4'⟩, fun _ => rfl⟩, fun h => absurd h h1,
            fun _ h => absurd h h2, fun _ _ h => absurd h h3, fun _ _ _ h => absurd h h4⟩

theorem C16_validate_witness :
    scenarioStored.Validate = none ∧
    ({ scenarioStored with ID := "" } : PullRequest).Validate = some .ErrInvalidPRID ∧
    ({ scenarioStored with Name := "" } : PullRequest).Validate = some .ErrInvalidPRName ∧
    ({ scenarioStored with AuthorID := "" } : PullRequest).Validate = some .ErrInvalidAuthorID ∧
    crowdedPR.Validate = some .ErrTooManyReviewers :=
  ⟨(C16_validate scenarioStored).1.mpr (by decide),
   (C16_validate { scenarioStored with ID := "" }).2.1 rfl,
   (C16_validate { scenarioStored with Name := "" }).2.2.1 (by decide) rfl,
   (C16_validate { scenarioStored with AuthorID := "" }).2.2.2.1 (by decide) (by decide) rfl,
   (C16_validate crowdedPR).2.2.2.2 (by decide) (by decide) (by decide) (by decide)⟩

/-! ## Which team a reviewer comes from -/

/-- C17 as stated fails for ReassignReviewer: in `movedDB` the author A of "pr-1" belongs
to team "core" and the reviewer B has been moved to team "other"; replacing B assigns D,
an active member of "other", who is not a member of the author's team. -/
theorem C17_replacement_from_another_team :
    movedDB = run DB.empty movedCalls ∧
    pullRequestRepository.GetByID movedDB "pr-1" = .ok scenarioStored ∧
    userRepository.GetByID movedDB none scenarioStored.AuthorID = .ok movedAuthor ∧
    (prService.ReassignReviewer movedDB scenarioEnv scenarioReassign).1 =
      .ok (movedReassigned, "D") ∧
    ¬ ∃ u ∈ movedDB.users, u.ID = "D" ∧ u.IsActive = true ∧
        u.TeamName = movedAuthor.TeamName :=
  ⟨rfl, rfl, rfl, rfl, by decide⟩

/-- C17, amended: each reviewer a successful Create assigns is an active member of the
team the author belongs to; the reviewer a successful ReassignReviewer assigns is an
active member of the team the replaced reviewer belongs to at the time of the call. -/
theorem C17_reviewer_pools (db : DB) (env : Env) :
    (∀ (req : PRCreateRequest) (pr : PullRequest) (db' : DB),
      prService.Create db env req = (.ok pr, db') →
      ∃ author, userRepository.GetByID db env.userQueryFault req.AuthorID = .ok author ∧
        ∀ x ∈ pr.AssignedReviewers, ∃ u ∈ db.users, u.ID = x ∧ u.IsActive = true ∧
          u.TeamName = author.TeamName) ∧
    (∀ (req : PRReassignRequest) (pr' : PullRequest) (newID : String) (db' : DB),
      prService.ReassignReviewer db env req = (.ok (pr', newID), db') →
      ∃ oldReviewer,
        userRepository.GetByID db env.userQueryFault req.OldReviewer = .ok oldReviewer ∧
        newID ∈ pr'.AssignedReviewers ∧
        ∃ u ∈ db.users, u.ID = newID ∧ u.IsActive = true ∧
          u.TeamName = oldReviewer.TeamName) := by
  constructor
  · intro req pr db' h
    obtain ⟨-, author, hauthor, -, -, hpr, -, -⟩ := Create_ok h
    refine ⟨author, hauthor, ?_⟩
    intro x hx
    rw [hpr] at hx
    dsimp only at hx
    rw [SelectReviewers_eq] at hx
    obtain ⟨u, hu, hid⟩ := mem_take_shuffle hx
    obtain ⟨h1, h2, h3, -⟩ :=
      (mem_GetActiveTeamMembersExcluding db author.TeamName [author.ID] u).mp hu
    exact ⟨u, h1, hid, h3, h2⟩
  · intro req pr' newID db' h
    obtain ⟨pr, old, -, -, hcon, hold, hsel, hpr', -⟩ := Reassign_ok h
    obtain ⟨u, hu, hid, ht, ha, -⟩ := SelectReplacementReviewer_ok hsel
    refine ⟨old, hold, ?_, u, hu, hid, ha, ht⟩
    rw [hpr']
    exact List.mem_map.mpr ⟨req.OldReviewer, (contains_iff _ _).mp hcon, by simp⟩

theorem C17_reviewer_pools_witness :
    (∃ author, userRepository.GetByID scenarioTeamDB scenarioEnv.userQueryFault
        scenarioRequest.AuthorID = .ok author ∧
      ∀ x ∈ scenarioReturned.AssignedReviewers, ∃ u ∈ scenarioTeamDB.users,
        u.ID = x ∧ u.IsActive = true ∧ u.TeamName = author.TeamName) ∧
    (∃ oldReviewer, userRepository.GetByID movedDB scenarioEnv.userQueryFault
        scenarioReassign.OldReviewer = .ok oldReviewer ∧
      "D" ∈ movedReassigned.AssignedReviewers ∧
      ∃ u ∈ movedDB.users, u.ID = "D" ∧ u.IsActive = true ∧
        u.TeamName = oldReviewer.TeamName) :=
  ⟨(C17_reviewer_pools scenarioTeamDB scenarioEnv).1 scenarioRequest scenarioReturned
      scenarioDB rfl,
   (C17_reviewer_pools movedDB scenarioEnv).2 scenarioReassign movedReassigned "D"
      (prService.ReassignReviewer movedDB scenarioEnv scenarioReassign).2 rfl⟩

/-! ## The summary -/

theorem summaryStep_fields (s : StatsSummary) (t : UserAssignmentStats) :
    (statsService.summaryStep s t).TotalUsers = s.TotalUsers ∧
    (statsService.summaryStep s t).ActiveUsers =
      s.ActiveUsers + (if t.IsActive = true then 1 else 0) ∧
    (statsService.summaryStep s t).TotalAssignments = s.TotalAssignments + t.AssignmentCount ∧
    (statsService.summaryStep s t).MostAssignments =
      (if t.AssignmentCount > s.MostAssignments then t.AssignmentCount
       else s.MostAssignments) ∧
    (statsService.summaryStep s t).MostAssignedUser =
      (if t.AssignmentCount > s.MostAssignments then t.Username else s.MostAssignedUser) := by
  unfold statsService.summaryStep
  by_cases ha : t.IsActive = true <;> by_cases hm : t.AssignmentCount > s.MostAssignments <;>
    simp [ha, hm]

theorem foldl_summaryStep_totals :
    ∀ (l : List UserAssignmentStats) (s : StatsSummary),
      (l.foldl statsService.summaryStep s).TotalUsers = s.TotalUsers ∧
      (l.foldl statsService.summaryStep s).ActiveUsers =
        s.ActiveUsers + ((l.countP (fun t => t.IsActive) : Nat) : Int) ∧
      (l.foldl statsService.summaryStep s).TotalAssignments =
        s.TotalAssignments + (l.map (fun t => t.AssignmentCount)).sum := by
  intro l
  induction l with
  | nil => intro s; simp
  | cons t rest ih =>
    intro s
    obtain ⟨h1, h2, h3, -, -⟩ := summaryStep_fields s t
    obtain ⟨i1, i2, i3⟩ := ih (statsService.summaryStep s t)
    simp only [List.foldl_cons, List.map_cons, List.sum_cons]
    refine ⟨i1.trans h1, ?_, ?_⟩
    · rw [i2, h2, List.countP_cons]
      by_cases ha : t.IsActive = true
      · simp [ha]; ring
      · simp [ha]
    · rw [i3, h3]; ring

/-- C19, summary totals: calculateSummary returns TotalUsers equal to the length of the
per-user list, ActiveUsers equal to the number of entries with IsActive set and
TotalAssignments equal to the sum of the entries' AssignmentCount; the PR-wide statistics
passed as second argument do not influence the result. -/
theorem C19_summary_totals (userStats : List UserAssignmentStats)
    (prStats prStats' : PRAssignmentStats) :
    (statsService.calculateSummary userStats prStats).TotalUsers = (userStats.length : Int) ∧
    (statsService.calculateSummary userStats prStats).ActiveUsers =
      ((userStats.countP (fun t => t.IsActive) : Nat) : Int) ∧
    (statsService.calculateSummary userStats prStats).TotalAssignments =
      (userStats.map (fun t => t.AssignmentCount)).sum ∧
    statsService.calculateSummary userStats prStats =
      statsService.calculateSummary userStats prStats' := by
  obtain ⟨h1, h2, h3⟩ := foldl_summaryStep_totals userStats
    { TotalUsers := (userStats.length : Int), ActiveUsers := 0, TotalAssignments := 0,
      MostAssignedUser := "", MostAssignments := 0 }
  unfold statsService.calculateSummary
  refine ⟨h1, ?_, ?_, rfl⟩
  · rw [h2]; simp
  · rw [h3]; simp

theorem foldl_summaryStep_most :
    ∀ (l : List UserAssignmentStats) (s : StatsSummary),
      s.MostAssignments ≤ (l.foldl statsService.summaryStep s).MostAssignments ∧
      (∀ t ∈ l, t.AssignmentCount ≤ (l.foldl statsService.summaryStep s).MostAssignments) ∧
      (((l.foldl statsService.summaryStep s).MostAssignments = s.MostAssignments ∧
        (l.foldl statsService.summaryStep s).MostAssignedUser = s.MostAssignedUser) ∨
       (s.MostAssignments < (l.foldl statsService.summaryStep s).MostAssignments ∧
        ∃ first, l.find? (fun t => t.AssignmentCount ==
            (l.foldl statsService.summaryStep s).MostAssignments) = some first ∧
          (l.foldl statsService.summaryStep s).MostAssignedUser = first.Username)) := by
  intro l
  induction l with
  | nil => intro s; simp
  | cons t rest ih =>
    intro s
    obtain ⟨-, -, -, h4, h5⟩ := summaryStep_fields s t
    obtain ⟨a1, a2, a3⟩ := ih (statsService.summaryStep s t)
    simp only [List.foldl_cons]
    by_cases hm : t.AssignmentCount > s.MostAssignments
    · rw [if_pos hm] at h4 h5
      refine ⟨by omega, ?_, Or.inr ⟨by omega, ?_⟩⟩
      · intro t' ht'
        rcases List.mem_cons.mp ht' with rfl | hrest
        · omega
        · exact a2 t' hrest
      · rcases a3 with ⟨e1, e2⟩ | ⟨hlt, first, hf, hu⟩
        · refine ⟨t, ?_, by rw [e2, h5]⟩
          rw [List.find?_cons_of_pos]
          simp only [beq_iff_eq]
          omega
        · refine ⟨first, ?_, hu⟩
          rw [List.find?_cons_of_neg]
          · exact hf
          · simp only [beq_iff_eq]
            omega
    · rw [if_neg hm] at h4 h5
      refine ⟨by omega, ?_, ?_⟩
      · intro t' ht'
        rcases List.mem_cons.mp ht' with rfl | hrest
        · omega
        · exact a2 t' hrest
      · rcases a3 with ⟨e1, e2⟩ | ⟨hlt, first, hf, hu⟩
        · exact Or.inl ⟨by omega, by rw [e2, h5]⟩
        · refine Or.inr ⟨by omega, first, ?_, hu⟩
          rw [List.find?_cons_of_neg]
          · exact hf
          · simp only [beq_iff_eq]
            omega

/-- C20 as stated fails: the per-user list of `soloDB` has one entry, user S with no
assignment; the maximum count is 0 and S is the first entry that has it, but
calculateSummary leaves MostAssignedUser empty. -/
theorem C20_no_most_assigned_user_at_zero :
    statsRepository.GetAssignmentStats soloDB = soloStats ∧
    soloStats ≠ [] ∧
    (∀ t ∈ soloStats, t.AssignmentCount ≤ 0) ∧
    (∃ first, soloStats.find? (fun t => t.AssignmentCount == 0) = some first ∧
      first.Username = "S") ∧
    (statsService.calculateSummary soloStats
      (statsRepository.GetPRAssignmentStats soloDB)).MostAssignments = 0 ∧
    (statsService.calculateSummary soloStats
      (statsRepository.GetPRAssignmentStats soloDB)).MostAssignedUser = "" ∧
    (statsService.calculateSummary soloStats
      (statsRepository.GetPRAssignmentStats soloDB)).MostAssignedUser ≠ "S" :=
  ⟨by decide, by decide, by decide, ⟨_, rfl, rfl⟩, by decide, by decide, by decide⟩

/-- C20, amended: MostAssignments is an upper bound of every AssignmentCount in the list;
when some entry has a positive count, MostAssignments is the maximum count and
MostAssignedUser is the Username of the first entry, in list order, whose count equals
it; when no entry has a positive count, MostAssignments is 0 and MostAssignedUser is the
empty string. -/
theorem C20_most_assigned_user (userStats : List UserAssignmentStats)
    (prStats : PRAssignmentStats) :
    (∀ t ∈ userStats,
      t.AssignmentCount ≤ (statsService.calculateSummary userStats prStats).MostAssignments) ∧
    ((∃ t ∈ userStats, 0 < t.AssignmentCount) →
      ∃ first, userStats.find? (fun t => t.AssignmentCount ==
          (statsService.calculateSummary userStats prStats).MostAssignments) = some first ∧
        (statsService.calculateSummary userStats prStats).MostAssignedUser = first.Username) ∧
    ((∀ t ∈ userStats, t.AssignmentCount ≤ 0) →
      (statsService.calculateSummary userStats prStats).MostAssignments = 0 ∧
      (statsService.calculateSummary userStats prStats).MostAssignedUser = "") := by
  obtain ⟨-, a2, a3⟩ := foldl_summaryStep_most userStats
    { TotalUsers := (userStats.length : Int), ActiveUsers := 0, TotalAssignments := 0,
      MostAssignedUser := "", MostAssignments := 0 }
  unfold statsService.calculateSummary
  refine ⟨a2, ?_, ?_⟩
  · rintro ⟨t, ht, hpos⟩
    rcases a3 with ⟨e1, -⟩ | ⟨-, first, hf, hu⟩
    · have := a2 t ht
      dsimp only at e1
      omega
    · exact ⟨first, hf, hu⟩
  · intro hall
    rcases a3 with ⟨e1, e2⟩ | ⟨hlt, first, hf, -⟩
    · exact ⟨e1, e2⟩
    · have hmem := List.mem_of_find?_eq_some hf
      have hcount := List.find?_some hf
      simp only [beq_iff_eq] at hcount
      have := hall first hmem
      dsimp only at hlt
      omega

theorem C20_most_assigned_user_witness :
    (∃ first, tiedStats.find? (fun t => t.AssignmentCount ==
        (statsService.calculateSummary tiedStats
          (statsRepository.GetPRAssignmentStats scenarioDB)).MostAssignments) = some first ∧
      (statsService.calculateSummary tiedStats
        (statsRepository.GetPRAssignmentStats scenarioDB)).MostAssignedUser = first.Username) ∧
    ((statsService.calculateSummary soloStats
        (statsRepository.GetPRAssignmentStats soloDB)).MostAssignments = 0 ∧
      (statsService.calculateSummary soloStats
        (statsRepository.GetPRAssignmentStats soloDB)).MostAssignedUser = "") :=
  ⟨(C20_most_assigned_user tiedStats (statsRepository.GetPRAssignmentStats scenarioDB)).2.1
      ⟨{ UserID := "B", Username := "B", TeamName := "core", IsActive := true,
         AssignmentCount := 2 }, by decide, by decide⟩,
   (C20_most_assigned_user soloStats (statsRepository.GetPRAssignmentStats soloDB)).2.2
      (by decide)⟩

/-! ## Counting assignments -/

theorem sum_map_add_indicator {β : Type} (f : β → Nat) (q : β → Bool) :
    ∀ prs : List β, (prs.map (fun r => f r + if q r = true then 1 else 0)).sum =
      (prs.map f).sum + prs.countP q := by
  intro prs
  induction prs with
  | nil => rfl
  | cons r rest ih =>
    simp only [List.map_cons, List.sum_cons, List.countP_cons, ih]
    omega

/-- Counting pairs row by row or column by column gives the same number. -/
theorem sum_countP_comm {α β : Type} (p : α → β → Bool) (prs : List β) :
    ∀ us : List α, (us.map (fun u => prs.countP (p u))).sum =
      (prs.map (fun r => us.countP (fun u => p u r))).sum := by
  intro us
  induction us with
  | nil => simp
  | cons u rest ih =>
    simp only [List.map_cons, List.sum_cons, List.countP_cons, ih]
    rw [sum_map_add_indicator (fun r => rest.countP (fun u => p u r)) (p u) prs]
    omega

/-- Users with distinct ids: at most as many of them review a pull request as its
reviewer list is long. -/
theorem countP_reviews_le (us : List User) (pr : PullRequest)
    (hn : (us.map (·.ID)).Nodup) :
    us.countP (fun u => statsRepository.reviews u.ID pr) ≤ pr.AssignedReviewers.length := by
  rw [List.countP_eq_length_filter, ← List.length_map (us.filter _) (fun u : User => u.ID)]
  apply List.Subperm.length_le
  apply List.subperm_of_subset
  · exact hn.sublist ((List.filter_sublist _).map _)
  · intro x hx
    obtain ⟨u, hu, rfl⟩ := List.mem_map.mp hx
    have := (List.mem_filter.mp hu).2
    unfold statsRepository.reviews at this
    obtain ⟨y, hy, hyu⟩ := List.any_eq_true.mp this
    have hyu' : y = u.ID := by simpa using hyu
    exact hyu' ▸ hy

theorem sum_assignments_le (us : List User) (prs : List PullRequest)
    (hn : (us.map (·.ID)).Nodup) (h2 : ∀ pr ∈ prs, pr.AssignedReviewers.length ≤ 2) :
    (us.map (fun u => prs.countP (statsRepository.reviews u.ID))).sum ≤ 2 * prs.length := by
  rw [sum_countP_comm (fun (u : User) (pr : PullRequest) => statsRepository.reviews u.ID pr)]
  have hb : ∀ x ∈ prs.map (fun r => us.countP (fun u => statsRepository.reviews u.ID r)),
      x ≤ 2 := by
    intro x hx
    obtain ⟨r, hr, rfl⟩ := List.mem_map.mp hx
    exact (countP_reviews_le us r hn).trans (h2 r hr)
  have := List.sum_le_card_nsmul _ 2 hb
  simpa [Nat.mul_comm] using this

theorem orderByCountThenUsername_perm (rows : List UserAssignmentStats) :
    (orderByCountThenUsername rows).Perm rows :=
  List.perm_insertionSort _ rows

/-- The sum of the per-user counts that `statsRepository.GetAssignmentStats` returns. -/
theorem GetAssignmentStats_sum (db : DB) :
    ((statsRepository.GetAssignmentStats db).map (fun t => t.AssignmentCount)).sum =
      ((((db.users.filter (fun u => u.IsActive == true)).map
        (fun u => db.pull_requests.countP (statsRepository.reviews u.ID))).sum : Nat) : Int) := by
  unfold statsRepository.GetAssignmentStats
  rw [((orderByCountThenUsername_perm _).map _).sum_eq, Nat.cast_list_sum]
  simp [List.map_map, Function.comp_def]

/-! ## At most two reviewers in a reachable database -/

theorem step_reviewers_le (db : DB) (c : Env × Call)
    (h : ∀ pr ∈ db.pull_requests, pr.AssignedReviewers.length ≤ 2) :
    ∀ pr ∈ (step db c).pull_requests, pr.AssignedReviewers.length ≤ 2 := by
  obtain ⟨env, call⟩ := c
  cases call with
  | teamCreate team =>
    show ∀ pr ∈ (teamService.Create db env team).2.pull_requests, _
    rw [teamCreate_pull_requests]; exact h
  | userSetActive userID isActive =>
    show ∀ pr ∈ (userService.SetActive db env userID isActive).2.pull_requests, _
    rw [setActive_pull_requests]; exact h
  | prCreate req =>
    show ∀ pr ∈ (prService.Create db env req).2.pull_requests, _
    rcases Create_cases db env req with ⟨e, he⟩ | ⟨created, db', hok⟩
    · rw [he]; exact h
    · rw [hok]
      obtain ⟨-, author, -, -, -, -, -, hdb⟩ := Create_ok hok
      rw [hdb]
      intro r hr
      rcases List.mem_append.mp hr with hold | hnew
      · exact h r hold
      · simp only [List.mem_singleton] at hnew
        subst hnew
        exact SelectReviewers_length_le db env.rnd author
  | prMerge req =>
    show ∀ pr ∈ (prService.Merge db env req).2.pull_requests, _
    rcases Merge_cases db env req with hsame | ⟨pr0, -, -, hdb⟩
    · rw [hsame]; exact h
    · rw [hdb]
      intro r hr
      obtain ⟨r0, hr0, rfl⟩ := List.mem_map.mp hr
      have := h r0 hr0
      split <;> exact this
  | prReassign req =>
    show ∀ pr ∈ (prService.ReassignReviewer db env req).2.pull_requests, _
    rcases Reassign_cases db env req with ⟨e, he⟩ | ⟨⟨pr', newID⟩, db', hok⟩
    · rw [he]; exact h
    · rw [hok]
      obtain ⟨pr0, old, hget, -, -, -, -, hpr', hupd⟩ := Reassign_ok hok
      rw [repoUpdate_ok hupd]
      intro r hr
      obtain ⟨r0, hr0, rfl⟩ := List.mem_map.mp hr
      split
      · dsimp only
        rw [hpr']
        simpa using h pr0 (pr_GetByID_ok hget).1
      · exact h r0 hr0

theorem run_reviewers_le (calls : List (Env × Call)) :
    ∀ pr ∈ (run DB.empty calls).pull_requests, pr.AssignedReviewers.length ≤ 2 :=
  run_induction (fun db => ∀ pr ∈ db.pull_requests, pr.AssignedReviewers.length ≤ 2)
    step_reviewers_le calls DB.empty (by simp [DB.empty])

/-- C18, stats consistency: in the database reached from the empty one by any sequence
of calls (team creation, SetActive, Create, Merge, ReassignReviewer), the
Summary.TotalAssignments that GetAssignmentStats returns, the sum of the assignment
counts of the active users, is at most twice PRStats.TotalPRs. -/
theorem C18_stats_consistency (calls : List (Env × Call)) :
    (statsService.GetAssignmentStats (run DB.empty calls)).Summary.TotalAssignments ≤
      2 * (statsService.GetAssignmentStats (run DB.empty calls)).PRStats.TotalPRs := by
  have hwf := run_wf calls DB.empty empty_wf
  have h2 := run_reviewers_le calls
  have hn : (((run DB.empty calls).users.filter (fun u => u.IsActive == true)).map
      (·.ID)).Nodup := hwf.2.1.sublist ((List.filter_sublist _).map _)
  have hsum := sum_assignments_le _ _ hn h2
  obtain ⟨-, -, h3⟩ := foldl_summaryStep_totals
    (statsRepository.GetAssignmentStats (run DB.empty calls))
    { TotalUsers := ((statsRepository.GetAssignmentStats (run DB.empty calls)).length : Int),
      ActiveUsers := 0, TotalAssignments := 0, MostAssignedUser := "", MostAssignments := 0 }
  unfold statsService.GetAssignmentStats statsService.calculateSummary
  dsimp only
  rw [h3, GetAssignmentStats_sum]
  unfold statsRepository.GetPRAssignmentStats
  dsimp only
  omega

/-! ## The per-user statistics -/

theorem reviews_eq_decide (userID : String) (pr : PullRequest) :
    statsRepository.reviews userID pr = decide (userID ∈ pr.AssignedReviewers) := by
  unfold statsRepository.reviews
  by_cases h : userID ∈ pr.AssignedReviewers
  · rw [decide_eq_true h, List.any_eq_true]
    exact ⟨userID, h, by simp⟩
  · rw [decide_eq_false h, List.any_eq_false]
    intro x hx hxe
    have hxe' : x = userID := by simpa using hxe
    exact h (hxe' ▸ hx)

theorem countP_reviews (db : DB) (userID : String) :
    db.pull_requests.countP (statsRepository.reviews userID) =
      db.pull_requests.countP (fun pr => decide (userID ∈ pr.AssignedReviewers)) := by
  congr 1
  funext pr
  exact reviews_eq_decide userID pr

theorem GetAssignmentStats_perm (db : DB) :
    (statsRepository.GetAssignmentStats db).Perm
      ((db.users.filter (fun u => u.IsActive == true)).map (userEntry db)) := by
  unfold statsRepository.GetAssignmentStats
  have hmap : (fun u : User =>
      ({ UserID := u.ID, Username := u.Username, TeamName := u.TeamName, IsActive := u.IsActive,
         AssignmentCount :=
          ((db.pull_requests.countP (statsRepository.reviews u.ID) : Nat) : Int) } :
        UserAssignmentStats)) = userEntry db := by
    funext u
    unfold userEntry
    rw [countP_reviews]
  rw [hmap]
  exact orderByCountThenUsername_perm _

theorem statsOrder_total (a b : UserAssignmentStats) :
    (a.AssignmentCount > b.AssignmentCount ∨
        (a.AssignmentCount = b.AssignmentCount ∧ ¬ (b.Username.data < a.Username.data))) ∨
      (b.AssignmentCount > a.AssignmentCount ∨
        (b.AssignmentCount = a.AssignmentCount ∧ ¬ (a.Username.data < b.Username.data))) := by
  rcases lt_trichotomy a.AssignmentCount b.AssignmentCount with h | h | h
  · exact Or.inr (Or.inl h)
  · rcases le_total a.Username.data b.Username.data with hu | hu
    · exact Or.inl (Or.inr ⟨h, not_lt.mpr hu⟩)
    · exact Or.inr (Or.inr ⟨h.symm, not_lt.mpr hu⟩)
  · exact Or.inl (Or.inl h)

theorem statsOrder_trans (a b c : UserAssignmentStats)
    (hab : a.AssignmentCount > b.AssignmentCount ∨
      (a.AssignmentCount = b.AssignmentCount ∧ ¬ (b.Username.data < a.Username.data)))
    (hbc : b.AssignmentCount > c.AssignmentCount ∨
      (b.AssignmentCount = c.AssignmentCount ∧ ¬ (c.Username.data < b.Username.data))) :
    a.AssignmentCount > c.AssignmentCount ∨
      (a.AssignmentCount = c.AssignmentCount ∧ ¬ (c.Username.data < a.Username.data)) := by
  rcases hab with h1 | ⟨h1, u1⟩ <;> rcases hbc with h2 | ⟨h2, u2⟩
  · exact Or.inl (by omega)
  · exact Or.inl (by omega)
  · exact Or.inl (by omega)
  · exact Or.inr ⟨by omega, not_lt.mpr (le_trans (not_lt.mp u1) (not_lt.mp u2))⟩

theorem GetAssignmentStats_sorted (db : DB) :
    (statsRepository.GetAssignmentStats db).Pairwise countDescThenUsername := by
  have hsorted := @List.sorted_insertionSort UserAssignmentStats
    (fun a b => a.AssignmentCount > b.AssignmentCount ∨
      (a.AssignmentCount = b.AssignmentCount ∧ ¬ (b.Username.data < a.Username.data)))
    _ ⟨statsOrder_total⟩ ⟨statsOrder_trans⟩
    ((db.users.filter (fun u => u.IsActive == true)).map (fun u =>
      ({ UserID := u.ID, Username := u.Username, TeamName := u.TeamName, IsActive := u.IsActive,
         AssignmentCount :=
          ((db.pull_requests.countP (statsRepository.reviews u.ID) : Nat) : Int) } :
        UserAssignmentStats)))
  unfold statsRepository.GetAssignmentStats orderByCountThenUsername
  refine List.Pairwise.imp ?_ hsorted
  intro a b hab
  rcases hab with h | ⟨h1, h2⟩
  · exact Or.inl h
  · exact Or.inr ⟨h1, not_lt.mp h2⟩

theorem user_unique {db : DB} {u v : User} (hn : (db.users.map (·.ID)).Nodup)
    (hu : u ∈ db.users) (hv : v ∈ db.users) (hid : u.ID = v.ID) : u = v := by
  have h1 := find?_of_nodup (fun r : User => r.ID) _ _ hn hu
  have h2 := find?_of_nodup (fun r : User => r.ID) _ _ hn hv
  dsimp only at h1 h2
  rw [hid, h2] at h1
  exact (Option.some.inj h1).symm

/-- C21, per-user statistics: on a database that respects the primary keys,
GetAssignmentStats returns the entry of every active user, no two entries with the same
user id, and nothing else (so none for an inactive user); the AssignmentCount of an
entry is the number of stored pull requests, of any status, whose reviewer list contains
the user's id; and of two entries the earlier has the greater count or, at equal counts,
the username that is not greater. -/
theorem C21_assignment_stats (db : DB) (hwf : db.wf) :
    (∀ u ∈ db.users, u.IsActive = true →
      userEntry db u ∈ (statsService.GetAssignmentStats db).UserStats) ∧
    (((statsService.GetAssignmentStats db).UserStats.map (fun t => t.UserID)).Nodup) ∧
    (∀ t ∈ (statsService.GetAssignmentStats db).UserStats,
      ∃ u ∈ db.users, u.IsActive = true ∧ t = userEntry db u) ∧
    (∀ u ∈ db.users, u.IsActive = false →
      ∀ t ∈ (statsService.GetAssignmentStats db).UserStats, t.UserID ≠ u.ID) ∧
    (∀ u : User, (userEntry db u).AssignmentCount =
      (((db.pull_requests.filter (fun pr => decide (u.ID ∈ pr.AssignedReviewers))).length : Nat) :
        Int)) ∧
    (statsService.GetAssignmentStats db).UserStats.Pairwise countDescThenUsername := by
  have hperm := GetAssignmentStats_perm db
  have hmem : ∀ t, t ∈ statsRepository.GetAssignmentStats db ↔
      ∃ u ∈ db.users, u.IsActive = true ∧ t = userEntry db u := by
    intro t
    rw [hperm.mem_iff, List.mem_map]
    constructor
    · rintro ⟨u, hu, rfl⟩
      obtain ⟨h1, h2⟩ := List.mem_filter.mp hu
      exact ⟨u, h1, by simpa using h2, rfl⟩
    · rintro ⟨u, h1, h2, rfl⟩
      exact ⟨u, List.mem_filter.mpr ⟨h1, by simpa using h2⟩, rfl⟩
  show (∀ u ∈ db.users, u.IsActive = true →
      userEntry db u ∈ statsRepository.GetAssignmentStats db) ∧
    (((statsRepository.GetAssignmentStats db).map (fun t => t.UserID)).Nodup) ∧
    (∀ t ∈ statsRepository.GetAssignmentStats db,
      ∃ u ∈ db.users, u.IsActive = true ∧ t = userEntry db u) ∧
    (∀ u ∈ db.users, u.IsActive = false →
      ∀ t ∈ statsRepository.GetAssignmentStats db, t.UserID ≠ u.ID) ∧
    (∀ u : User, (userEntry db u).AssignmentCount =
      (((db.pull_requests.filter (fun pr => decide (u.ID ∈ pr.AssignedReviewers))).length : Nat) :
        Int)) ∧
    (statsRepository.GetAssignmentStats db).Pairwise countDescThenUsername
  refine ⟨?_, ?_, ?_, ?_, ?_, GetAssignmentStats_sorted db⟩
  · intro u hu ha
    exact (hmem _).mpr ⟨u, hu, ha, rfl⟩
  · rw [(hperm.map (fun t => t.UserID)).nodup_iff, List.map_map]
    have : ((fun t : UserAssignmentStats => t.UserID) ∘ userEntry db) = fun u : User => u.ID := by
      funext u; rfl
    rw [this]
    exact hwf.2.1.sublist ((List.filter_sublist _).map _)
  · intro t ht
    exact (hmem t).mp ht
  · intro u hu hina t ht hid
    obtain ⟨v, hv, hact, rfl⟩ := (hmem t).mp ht
    have huv : v = u := user_unique hwf.2.1 hv hu hid
    rw [huv, hina] at hact
    cases hact
  · intro u
    unfold userEntry
    dsimp only
    rw [List.countP_eq_length_filter]

theorem C21_assignment_stats_witness :
    (∀ u ∈ movedDB.users, u.IsActive = true →
      userEntry movedDB u ∈ (statsService.GetAssignmentStats movedDB).UserStats) ∧
    (((statsService.GetAssignmentStats movedDB).UserStats.map (fun t => t.UserID)).Nodup) ∧
    (∀ t ∈ (statsService.GetAssignmentStats movedDB).UserStats,
      ∃ u ∈ movedDB.users, u.IsActive = true ∧ t = userEntry movedDB u) ∧
    (∀ u ∈ movedDB.users, u.IsActive = false →
      ∀ t ∈ (statsService.GetAssignmentStats movedDB).UserStats, t.UserID ≠ u.ID) ∧
    (∀ u : User, (userEntry movedDB u).AssignmentCount =
      (((movedDB.pull_requests.filter
        (fun pr => decide (u.ID ∈ pr.AssignedReviewers))).length : Nat) : Int)) ∧
    (statsService.GetAssignmentStats movedDB).UserStats.Pairwise countDescThenUsername :=
  C21_assignment_stats movedDB (by decide)

theorem user_GetByID_of_mem {db : DB} {u : User} (hn : (db.users.map (·.ID)).Nodup)
    (hu : u ∈ db.users) : userRepository.GetByID db none u.ID = .ok u := by
  unfold userRepository.GetByID
  dsimp only
  rw [find?_of_nodup (fun r : User => r.ID) _ _ hn hu]

theorem user_GetByID_missing {db : DB} {userID : String}
    (h : ∀ u ∈ db.users, u.ID ≠ userID) :
    userRepository.GetByID db none userID = .error .ErrNotFound := by
  unfold userRepository.GetByID
  dsimp only
  have hnone : db.users.find? (fun u => u.ID == userID) = none := by
    rw [List.find?_eq_none]
    intro u hu
    simpa using h u hu
  rw [hnone]

/-- C22, GetUserStats: when the user store answers, the call fails with ErrNotFound
exactly when no user has the id; on a database that respects the primary keys it returns,
for every stored user, active or not, that user's ID, Username, TeamName and IsActive with
an AssignmentCount equal to the number of stored pull requests, of any status, whose
reviewer list contains the id.  The method only reads: its embedding returns no
database. -/
theorem C22_user_stats (db : DB) (env : Env) (hfault : env.userQueryFault = none) :
    (∀ userID : String, statsService.GetUserStats db env userID = .error .ErrNotFound ↔
      ∀ u ∈ db.users, u.ID ≠ userID) ∧
    (db.wf → ∀ u ∈ db.users,
      statsService.GetUserStats db env u.ID =
        .ok { UserID := u.ID, Username := u.Username, TeamName := u.TeamName,
              IsActive := u.IsActive,
              AssignmentCount := (((db.pull_requests.filter
                (fun pr => decide (u.ID ∈ pr.AssignedReviewers))).length : Nat) : Int) }) := by
  constructor
  · intro userID
    constructor
    · intro herr u hu hid
      unfold statsService.GetUserStats at herr
      cases hget : userRepository.GetByID db env.userQueryFault userID with
      | error e =>
        rw [hfault] at hget
        unfold userRepository.GetByID at hget
        dsimp only at hget
        have hfind := List.find?_eq_none.mp (by
          cases hf : db.users.find? (fun u => u.ID == userID) with
          | none => rfl
          | some v => rw [hf] at hget; cases hget) u hu
        simp [hid] at hfind
      | ok v => rw [hget] at herr; cases herr
    · intro hnone
      unfold statsService.GetUserStats
      rw [hfault, user_GetByID_missing hnone]
  · intro hwf u hu
    unfold statsService.GetUserStats statsRepository.GetUserAssignmentCount
    rw [hfault, user_GetByID_of_mem hwf.2.1 hu]
    dsimp only
    rw [countP_reviews, List.countP_eq_length_filter]

theorem C22_user_stats_witness :
    statsService.GetUserStats noCandidateDB scenarioEnv "nobody" = .error .ErrNotFound ∧
    statsService.GetUserStats noCandidateDB scenarioEnv "C" =
      .ok { UserID := "C", Username := "C", TeamName := "core", IsActive := false,
            AssignmentCount := 1 } :=
  ⟨((C22_user_stats noCandidateDB scenarioEnv rfl).1 "nobody").mpr (by decide),
   (C22_user_stats noCandidateDB scenarioEnv rfl).2 (by decide)
     { ID := "C", Username := "C", TeamName := "core", IsActive := false, CreatedAt := 20,
       UpdatedAt := 40 } (by decide)⟩

theorem orderByCreatedAtDesc_perm (rows : List PullRequest) :
    (orderByCreatedAtDesc rows).Perm rows :=
  List.perm_insertionSort _ rows

/-- C23, GetByReviewer: when the user store answers and no user has the reviewer id, the
call fails with ErrNotFound whatever the table of pull requests holds; when a user has
the id, it returns, in some order, exactly one short record (ID, Name, AuthorID, Status)
for each stored pull request, of any status, whose reviewer list contains the id.  The
method only reads: its embedding returns no database. -/
theorem C23_get_by_reviewer (db : DB) (env : Env) (reviewerID : String)
    (hfault : env.userQueryFault = none) :
    ((∀ u ∈ db.users, u.ID ≠ reviewerID) → ∀ prs : List PullRequest,
      prService.GetByReviewer { db with pull_requests := prs } env reviewerID =
        .error .ErrNotFound) ∧
    ((∃ u ∈ db.users, u.ID = reviewerID) →
      ∃ shorts, prService.GetByReviewer db env reviewerID = .ok shorts ∧
        shorts.Perm ((db.pull_requests.filter
          (fun pr => decide (reviewerID ∈ pr.AssignedReviewers))).map PullRequest.toShort)) := by
  constructor
  · intro hnone prs
    unfold prService.GetByReviewer
    rw [hfault]
    have := @user_GetByID_missing { db with pull_requests := prs } reviewerID hnone
    rw [this]
  · rintro ⟨u, hu, hid⟩
    cases hget : userRepository.GetByID db none reviewerID with
    | error e =>
      unfold userRepository.GetByID at hget
      dsimp only at hget
      cases hf : db.users.find? (fun u => u.ID == reviewerID) with
      | none =>
        have := List.find?_eq_none.mp hf u hu
        simp [hid] at this
      | some v => rw [hf] at hget; cases hget
    | ok v =>
      refine ⟨pullRequestRepository.GetByReviewer db reviewerID, ?_, ?_⟩
      · unfold prService.GetByReviewer
        rw [hfault, hget]
      · unfold pullRequestRepository.GetByReviewer
        have hfilter : db.pull_requests.filter (statsRepository.reviews reviewerID) =
            db.pull_requests.filter (fun pr => decide (reviewerID ∈ pr.AssignedReviewers)) := by
          congr 1
          funext pr
          exact reviews_eq_decide reviewerID pr
        rw [hfilter]
        exact (orderByCreatedAtDesc_perm _).map _

theorem C23_get_by_reviewer_witness :
    (∀ prs : List PullRequest,
      prService.GetByReviewer { movedDB with pull_requests := prs } scenarioEnv "nobody" =
        .error .ErrNotFound) ∧
    (∃ shorts, prService.GetByReviewer movedDB scenarioEnv "B" = .ok shorts ∧
      shorts.Perm ((movedDB.pull_requests.filter
        (fun pr => decide ("B" ∈ pr.AssignedReviewers))).map PullRequest.toShort)) :=
  ⟨(C23_get_by_reviewer movedDB scenarioEnv "nobody" rfl).1 (by decide),
   (C23_get_by_reviewer movedDB scenarioEnv "B" rfl).2
     ⟨{ ID := "B", Username := "B", TeamName := "other", IsActive := true, CreatedAt := 20,
        UpdatedAt := 40 }, by decide, rfl⟩⟩

/-! ## Errors of the user store, timestamps of Create, the conditional merge, status codes -/

/-- C24 fails on the code: with the user store down, `userRepository.GetByID` returns a
wrapped driver error, but Create (looking up the author) and ReassignReviewer (looking up
the old reviewer) replace it by the domain error ErrNotFound; GetByReviewer, on the same
lookup, returns the wrapped error as it is. -/
theorem C24_store_failure_reported_as_not_found :
    userRepository.GetByID scenarioTeamDB faultEnv.userQueryFault scenarioRequest.AuthorID =
      .error (.infra "failed to get user by id: connection refused") ∧
    prService.Create scenarioTeamDB faultEnv scenarioRequest =
      (.error .ErrNotFound, scenarioTeamDB) ∧
    userRepository.GetByID scenarioDB faultEnv.userQueryFault scenarioReassign.OldReviewer =
      .error (.infra "failed to get user by id: connection refused") ∧
    prService.ReassignReviewer scenarioDB faultEnv scenarioReassign =
      (.error .ErrNotFound, scenarioDB) ∧
    prService.GetByReviewer scenarioDB faultEnv scenarioReassign.OldReviewer =
      .error (.infra "failed to get user by id: connection refused") :=
  ⟨rfl, rfl, rfl, rfl, rfl⟩

/-- C25 as stated fails: in the scenario Create returns a record created at the service's
time 10 with the zero update time, while the row read back was created and updated at
the database's time 20. -/
theorem C25_returned_record_differs_from_stored :
    prService.Create scenarioTeamDB scenarioEnv scenarioRequest =
      (.ok scenarioReturned, scenarioDB) ∧
    pullRequestRepository.GetByID scenarioDB scenarioRequest.ID = .ok scenarioStored ∧
    scenarioReturned ≠ scenarioStored ∧
    scenarioReturned.CreatedAt ≠ scenarioStored.CreatedAt ∧
    scenarioReturned.UpdatedAt ≠ scenarioStored.UpdatedAt :=
  ⟨rfl, rfl, by decide, by decide, by decide⟩

/-- C25, amended: after a successful Create the record read back under the request's id
equals the returned one in ID, Name, AuthorID, Status, AssignedReviewers and MergedAt
(absent); the returned CreatedAt is the service's `time.Now()`, the stored creation and
update timestamps are the database's `CURRENT_TIMESTAMP`. -/
theorem C25_create_returns (db db' : DB) (env : Env) (req : PRCreateRequest)
    (pr : PullRequest) (h : prService.Create db env req = (.ok pr, db')) :
    ∃ stored, pullRequestRepository.GetByID db' req.ID = .ok stored ∧
      stored.ID = pr.ID ∧ stored.Name = pr.Name ∧ stored.AuthorID = pr.AuthorID ∧
      stored.Status = pr.Status ∧ stored.AssignedReviewers = pr.AssignedReviewers ∧
      stored.MergedAt = pr.MergedAt ∧ pr.MergedAt = none ∧
      pr.CreatedAt = env.now ∧ stored.CreatedAt = env.dbNow ∧ stored.UpdatedAt = env.dbNow := by
  obtain ⟨hex, author, -, -, -, hpr, -, hdb⟩ := Create_ok h
  subst hdb hpr
  exact ⟨_, GetByID_created hex, rfl, rfl, rfl, rfl, rfl, rfl, rfl, rfl, rfl, rfl⟩

theorem C25_create_returns_witness :
    ∃ stored, pullRequestRepository.GetByID scenarioDB scenarioRequest.ID = .ok stored ∧
      stored.ID = scenarioReturned.ID ∧ stored.Name = scenarioReturned.Name ∧
      stored.AuthorID = scenarioReturned.AuthorID ∧ stored.Status = scenarioReturned.Status ∧
      stored.AssignedReviewers = scenarioReturned.AssignedReviewers ∧
      stored.MergedAt = scenarioReturned.MergedAt ∧ scenarioReturned.MergedAt = none ∧
      scenarioReturned.CreatedAt = scenarioEnv.now ∧ stored.CreatedAt = scenarioEnv.dbNow ∧
      stored.UpdatedAt = scenarioEnv.dbNow :=
  C25_create_returns scenarioTeamDB scenarioDB scenarioEnv scenarioRequest scenarioReturned rfl

theorem repoMerge_of_merged {db : DB} {prID : String} {pr : PullRequest} (dbNow t : Time)
    (h : pullRequestRepository.GetByID db prID = .ok pr) (hs : pr.Status = StatusMerged) :
    pullRequestRepository.Merge db dbNow prID t = .ok { db with
      pull_requests := db.pull_requests.map (fun r =>
        if r.ID == prID && r.Status != "MERGED" then
          { r with Status := "MERGED", MergedAt := some t, UpdatedAt := dbNow }
        else r) } := by
  obtain ⟨hmem, hid⟩ := pr_GetByID_ok h
  have hs' : pr.Status = "MERGED" := hs
  have hex : pullRequestRepository.Exists { db with
      pull_requests := db.pull_requests.map (fun r =>
        if r.ID == prID && r.Status != "MERGED" then
          { r with Status := "MERGED", MergedAt := some t, UpdatedAt := dbNow }
        else r) } prID = true := by
    simp only [pullRequestRepository.Exists, List.any_eq_true, beq_iff_eq, List.mem_map]
    exact ⟨pr, ⟨pr, hmem, by simp [hs']⟩, hid⟩
  unfold pullRequestRepository.Merge
  dsimp only
  rw [hex]
  simp only [if_true, ite_self]

/-- C26, store-level conditional merge: `pullRequestRepository.Merge(id, t)` succeeds and
leaves the row with status MERGED and merged_at = t when the stored pull request is not
MERGED; succeeds and leaves the row as it is when it is already MERGED (the whole
database, under the primary keys); and returns ErrNotFound, with nothing to write, when
no pull request has the id. -/
theorem C26_conditional_merge (db : DB) (dbNow t : Time) (prID : String) :
    (∀ pr, pullRequestRepository.GetByID db prID = .ok pr → pr.Status ≠ StatusMerged →
      ∃ db', pullRequestRepository.Merge db dbNow prID t = .ok db' ∧
        pullRequestRepository.GetByID db' prID =
          .ok { pr with Status := StatusMerged, MergedAt := some t, UpdatedAt := dbNow }) ∧
    (∀ pr, pullRequestRepository.GetByID db prID = .ok pr → pr.Status = StatusMerged →
      ∃ db', pullRequestRepository.Merge db dbNow prID t = .ok db' ∧
        pullRequestRepository.GetByID db' prID = .ok pr ∧ (db.wf → db' = db)) ∧
    ((∀ r ∈ db.pull_requests, r.ID ≠ prID) →
      pullRequestRepository.Merge db dbNow prID t = .error .ErrNotFound) := by
  have hf : ∀ r : PullRequest, (if r.ID == prID && r.Status != "MERGED" then
      { r with Status := "MERGED", MergedAt := some t, UpdatedAt := dbNow }
      else r).ID = r.ID := by
    intro r; split <;> rfl
  refine ⟨?_, ?_, ?_⟩
  · intro pr hget hs
    exact ⟨_, repoMerge_of_open dbNow t hget hs, GetByID_after_repoMerge dbNow t hget hs⟩
  · intro pr hget hs
    have hs' : pr.Status = "MERGED" := hs
    refine ⟨_, repoMerge_of_merged dbNow t hget hs, ?_, ?_⟩
    · rw [GetByID_map _ hf hget]
      simp [hs']
    · intro hwf
      have hfix : ∀ r ∈ db.pull_requests,
          (if r.ID == prID && r.Status != "MERGED" then
            { r with Status := "MERGED", MergedAt := some t, UpdatedAt := dbNow }
          else r) = r := by
        intro r hr
        by_cases hrid : r.ID = prID
        · have : r = pr := pr_unique hwf.1 hr (hrid ▸ hget)
          subst this
          simp [hs']
        · simp [hrid]
      have hmap := List.map_congr_left hfix
      rw [List.map_id'] at hmap
      rw [hmap]
  · intro hnone
    unfold pullRequestRepository.Merge
    dsimp only
    have hcount : db.pull_requests.countP (fun r => r.ID == prID && r.Status != "MERGED") = 0 := by
      rw [List.countP_eq_zero]
      intro r hr
      simp [hnone r hr]
    have hex : pullRequestRepository.Exists { db with
        pull_requests := db.pull_requests.map (fun r =>
          if r.ID == prID && r.Status != "MERGED" then
            { r with Status := "MERGED", MergedAt := some t, UpdatedAt := dbNow }
          else r) } prID = false := by
      rw [pr_Exists_false]
      intro r hr
      obtain ⟨r0, hr0, rfl⟩ := List.mem_map.mp hr
      rw [hf r0]
      exact hnone r0 hr0
    rw [if_pos hcount, hex]
    rfl

theorem C26_conditional_merge_witness :
    (∃ db', pullRequestRepository.Merge scenarioDB 40 "pr-1" 30 = .ok db' ∧
      pullRequestRepository.GetByID db' "pr-1" =
        .ok { scenarioStored with Status := StatusMerged, MergedAt := some 30, UpdatedAt := 40 }) ∧
    (∃ db', pullRequestRepository.Merge scenarioMergedDB 40 "pr-1" 30 = .ok db' ∧
      pullRequestRepository.GetByID db' "pr-1" = .ok scenarioMerged ∧
      (scenarioMergedDB.wf → db' = scenarioMergedDB)) ∧
    pullRequestRepository.Merge scenarioDB 40 "pr-404" 30 = .error .ErrNotFound :=
  ⟨(C26_conditional_merge scenarioDB 40 30 "pr-1").1 scenarioStored rfl (by decide),
   (C26_conditional_merge scenarioMergedDB 40 30 "pr-1").2.1 scenarioMerged rfl rfl,
   (C26_conditional_merge scenarioDB 40 30 "pr-404").2.2 (by decide)⟩

/-- C27 fails on the code: `GET /team/get` for a team name that names no stored team and
`POST /users/setIsActive` for a user id that names no stored user answer 500, not 404.
The services report the miss as an error, which the handlers answer with 500 before they
reach their `== nil` test, the only place that answers 404. -/
theorem C27_not_found_answers_500 :
    (∀ t ∈ scenarioDB.teams, t.Name ≠ "nope") ∧
    teamService.Get scenarioDB "nope" = .error .ErrNotFound ∧
    Server.getTeam scenarioDB "nope" = 500 ∧
    (∀ u ∈ scenarioDB.users, u.ID ≠ "nobody") ∧
    (userService.SetActive scenarioDB scenarioEnv "nobody" true).1 = .error .ErrNotFound ∧
    Server.setUserActive scenarioDB scenarioEnv { UserID := "nobody", IsActive := true } =
      (500, scenarioDB) ∧
    Server.getTeam scenarioDB "core" = 200 ∧
    (Server.setUserActive scenarioDB scenarioEnv { UserID := "A", IsActive := true }).1 = 200 :=
  ⟨by decide, rfl, by decide, by decide, rfl, by decide, by decide, by decide⟩

/-! ## The shuffle, and the validation of a team -/

/-- C29, the shuffle is a permutation: for every input list and every random source,
ShuffleUsers and ShuffleStrings return a list with the same length and the same number of
occurrences of every element as the input.  Both functions shuffle a copy: the embedding
takes the input as a value and returns the new list. -/
theorem C29_shuffle_permutation (rnd : Nat → Nat) (users : List User) (items : List String) :
    (ShuffleUsers rnd users).Perm users ∧
    (ShuffleUsers rnd users).length = users.length ∧
    (∀ u : User, (ShuffleUsers rnd users).count u = users.count u) ∧
    (ShuffleStrings rnd items).Perm items ∧
    (ShuffleStrings rnd items).length = items.length ∧
    (∀ x : String, (ShuffleStrings rnd items).count x = items.count x) := by
  have hu : (ShuffleUsers rnd users).Perm users := Shuffle_perm rnd users
  have hs : (ShuffleStrings rnd items).Perm items := Shuffle_perm rnd items
  exact ⟨hu, hu.length_eq, fun u => hu.count_eq u, hs, hs.length_eq, fun x => hs.count_eq x⟩

theorem User_Validate_none_iff (u : User) :
    u.Validate = none ↔ u.ID ≠ "" ∧ u.Username ≠ "" ∧ u.TeamName ≠ "" := by
  unfold User.Validate
  by_cases h1 : u.ID = ""
  · simp [h1]
  · by_cases h2 : u.Username = ""
    · simp [h1, h2]
    · by_cases h3 : u.TeamName = ""
      · simp [h1, h2, h3]
      · simp [h1, h2, h3]

theorem validateMembers_valid (name : String) :
    ∀ ms : List User, (∀ m ∈ ms, m.Validate = none) →
      Team.validateMembers name ms = (none, ms.map (fun m => { m with TeamName := name })) := by
  intro ms
  induction ms with
  | nil => intro _; rfl
  | cons x rest ih =>
    intro h
    unfold Team.validateMembers
    rw [h x (List.mem_cons_self _ _)]
    dsimp only
    rw [ih (fun m hm => h m (List.mem_cons_of_mem _ hm))]
    rfl

theorem validateMembers_invalid (name : String) (m : User) (post : List User) (e : Err)
    (hm : m.Validate = some e) :
    ∀ pre : List User, (∀ x ∈ pre, x.Validate = none) →
      Team.validateMembers name (pre ++ m :: post) =
        (some e, pre.map (fun x => { x with TeamName := name }) ++ m :: post) := by
  intro pre
  induction pre with
  | nil =>
    intro _
    simp only [List.nil_append, List.map_nil]
    unfold Team.validateMembers
    rw [hm]
  | cons x rest ih =>
    intro h
    simp only [List.cons_append, List.map_cons]
    unfold Team.validateMembers
    rw [h x (List.mem_cons_self _ _)]
    dsimp only
    rw [ih (fun y hy => h y (List.mem_cons_of_mem _ hy))]

theorem validateMembers_none_iff (name : String) :
    ∀ ms : List User, (Team.validateMembers name ms).1 = none ↔ ∀ m ∈ ms, m.Validate = none := by
  intro ms
  induction ms with
  | nil => simp [Team.validateMembers]
  | cons x rest ih =>
    unfold Team.validateMembers
    cases hx : x.Validate with
    | some e => simp [hx]
    | none =>
      dsimp only
      rw [ih]
      simp [hx]

/-- C30, Team.Validate: it returns nil exactly when the team's Name is non-empty and
every member, as passed in, has a non-empty ID, Username and TeamName; a member with an
empty TeamName of its own is rejected with ErrInvalidTeamName although the team's Name is
valid; when it returns nil, every member carries the team's Name; when it fails on a
member, the members before it carry the team's Name already and that member and the
ones after it are as passed in. -/
theorem C30_team_validate (t : Team) :
    (t.Validate.1 = none ↔
      t.Name ≠ "" ∧ ∀ m ∈ t.Members, m.ID ≠ "" ∧ m.Username ≠ "" ∧ m.TeamName ≠ "") ∧
    (∀ (pre : List User) (m : User) (post : List User), t.Name ≠ "" →
      t.Members = pre ++ m :: post → (∀ x ∈ pre, x.Validate = none) →
      m.ID ≠ "" → m.Username ≠ "" → m.TeamName = "" →
      t.Validate.1 = some .ErrInvalidTeamName) ∧
    (t.Validate.1 = none →
      t.Validate.2 = { t with Members := t.Members.map (fun m => { m with TeamName := t.Name }) } ∧
      ∀ m ∈ t.Validate.2.Members, m.TeamName = t.Name) ∧
    (∀ (pre : List User) (m : User) (post : List User) (e : Err), t.Name ≠ "" →
      t.Members = pre ++ m :: post → (∀ x ∈ pre, x.Validate = none) → m.Validate = some e →
      t.Validate = (some e, { t with
        Members := pre.map (fun x => { x with TeamName := t.Name }) ++ m :: post })) := by
  have hfail : ∀ (pre : List User) (m : User) (post : List User) (e : Err), t.Name ≠ "" →
      t.Members = pre ++ m :: post → (∀ x ∈ pre, x.Validate = none) → m.Validate = some e →
      t.Validate = (some e, { t with
        Members := pre.map (fun x => { x with TeamName := t.Name }) ++ m :: post }) := by
    intro pre m post e hname hmem hpre hm
    unfold Team.Validate
    rw [if_neg hname]
    dsimp only
    rw [hmem, validateMembers_invalid t.Name m post e hm pre hpre]
  refine ⟨?_, ?_, ?_, hfail⟩
  · unfold Team.Validate
    by_cases hname : t.Name = ""
    · simp [hname]
    · rw [if_neg hname]
      dsimp only
      rw [validateMembers_none_iff]
      constructor
      · intro h
        exact ⟨hname, fun m hm => (User_Validate_none_iff m).mp (h m hm)⟩
      · rintro ⟨-, h⟩ m hm
        exact (User_Validate_none_iff m).mpr (h m hm)
  · intro pre m post hname hmem hpre h1 h2 h3
    have hm : m.Validate = some .ErrInvalidTeamName := by
      unfold User.Validate
      rw [if_neg h1, if_neg h2, if_pos h3]
    rw [hfail pre m post _ hname hmem hpre hm]
  · intro hnone
    have hname : t.Name ≠ "" := by
      intro h
      unfold Team.Validate at hnone
      rw [if_pos h] at hnone
      cases hnone
    have hall : ∀ m ∈ t.Members, m.Validate = none := by
      unfold Team.Validate at hnone
      rw [if_neg hname] at hnone
      exact (validateMembers_none_iff t.Name t.Members).mp hnone
    have hval : t.Validate =
        (none, { t with Members := t.Members.map (fun m => { m with TeamName := t.Name }) }) := by
      unfold Team.Validate
      rw [if_neg hname]
      dsimp only
      rw [validateMembers_valid t.Name t.Members hall]
    rw [hval]
    refine ⟨rfl, ?_⟩
    intro m hm
    obtain ⟨m0, -, rfl⟩ := List.mem_map.mp hm
    rfl

theorem C30_team_validate_witness :
    acceptedTeam.Validate.1 = none ∧
    rejectedTeam.Validate.1 = some .ErrInvalidTeamName ∧
    (∀ m ∈ acceptedTeam.Validate.2.Members, m.TeamName = acceptedTeam.Name) ∧
    rejectedTeam.Validate = (some .ErrInvalidTeamName, { rejectedTeam with
      Members := [scenarioMember "A"].map (fun x => { x with TeamName := rejectedTeam.Name }) ++
        unnamedMember :: [scenarioMember "B"] }) :=
  ⟨(C30_team_validate acceptedTeam).1.mpr (by decide),
   (C30_team_validate rejectedTeam).2.1 [scenarioMember "A"] unnamedMember [scenarioMember "B"]
     (by decide) rfl (by decide) (by decide) (by decide) rfl,
   ((C30_team_validate acceptedTeam).2.2.1 (by decide)).2,
   (C30_team_validate rejectedTeam).2.2.2 [scenarioMember "A"] unnamedMember
     [scenarioMember "B"] .ErrInvalidTeamName (by decide) rfl (by decide) (by decide)⟩

end PRManager
